import Mathlib

/-!
Shallow embedding of the planetes physics and orbital-mechanics core
(orbits.js, planets.js, spacecraft.js), with theorems checking the
natural-language specification against this embedding.

Machine floating-point arithmetic is idealised as real arithmetic: every
JavaScript number is embedded as a real number, `Math.sqrt`, `Math.sin`,
`Math.cos` become `Real.sqrt`, `Real.sin`, `Real.cos`, and the JavaScript
remainder operator `%` (truncated division remainder, sign of the dividend)
is modelled explicitly by `jsRem`.  In this embedding every value is a real
number, so no NaN or infinity can arise; the singularity guards of the
source are preserved verbatim.
-/

namespace Planetes

noncomputable section

/-- A 3-component vector of reals; embeds the `{ x, y, z }` objects used
throughout the source for positions (AU), velocities (AU/day) and
accelerations (AU/day²). -/
@[ext] structure Vec3 where
  x : ℝ
  y : ℝ
  z : ℝ

/-- Zero vector. -/
def Vec3.zero : Vec3 := ⟨0, 0, 0⟩

/-- Componentwise vector addition. -/
def vadd (u v : Vec3) : Vec3 := ⟨u.x + v.x, u.y + v.y, u.z + v.z⟩

/-- Componentwise vector subtraction. -/
def vsub (u v : Vec3) : Vec3 := ⟨u.x - v.x, u.y - v.y, u.z - v.z⟩

/-- Scalar multiplication. -/
def smul (c : ℝ) (v : Vec3) : Vec3 := ⟨c * v.x, c * v.y, c * v.z⟩

/-- Euclidean norm, written with the `v.x*v.x + ...` products of the source
(`getSpeedKmS`, `getGravityMagnitude`). -/
noncomputable def vnorm (v : Vec3) : ℝ := Real.sqrt (v.x * v.x + v.y * v.y + v.z * v.z)

/-! ### planets.js constants -/

/-- planets.js: `AU_KM = 1.496e8`, one AU in kilometres. -/
def AU_KM : ℝ := 1.496e8

/-- spacecraft.js: `AU_TO_KM = AU_KM`. -/
def AU_TO_KM : ℝ := AU_KM

/-- spacecraft.js: `DAY_TO_S = 86400`. -/
def DAY_TO_S : ℝ := 86400

/-- planets.js: `GM_SUN_AU3_DAY2 = 2.9591e-4`. -/
def GM_SUN_AU3_DAY2 : ℝ := 2.9591e-4

/-- spacecraft.js: `THRUST_ACCEL = 0.0005` (AU/day²). -/
def THRUST_ACCEL : ℝ := 0.0005

/-! ### Data model -/

/-- Static per-body data (`body.data` in spacecraft.js): the fields the
physics core reads. -/
structure BodyData where
  name : String
  GM_AU3_day2 : ℝ

/-- A celestial body as seen by the gravity code: static data plus the
current position in AU. -/
structure Body where
  data : BodyData
  positionAU : Vec3

/-- The spacecraft state fields read and written by the physics core
(`createSpacecraft` also stores mesh/input state, which is external). -/
structure Spacecraft where
  positionAU : Vec3
  velocityAU : Vec3
  thrustAccel : ℝ

/-- Keplerian orbital elements plus secular rates per Julian century
(planets.js `elements` records). -/
structure OrbitalElements where
  a : ℝ
  aRate : ℝ
  e : ℝ
  eRate : ℝ
  I : ℝ
  IRate : ℝ
  L : ℝ
  LRate : ℝ
  wBar : ℝ
  wBarRate : ℝ
  Omega : ℝ
  OmegaRate : ℝ

/-! ### orbits.js -/

/-- orbits.js `DEG2RAD = Math.PI / 180`. -/
noncomputable def DEG2RAD : ℝ := Real.pi / 180

/-- orbits.js `julianDate`: Julian date from a millisecond timestamp
(`date.getTime()` of the JS `Date`). -/
def julianDate (ms : ℝ) : ℝ := ms / 86400000 + 2440587.5

/-- orbits.js `centuriesSinceJ2000`. -/
def centuriesSinceJ2000 (jd : ℝ) : ℝ := (jd - 2451545.0) / 36525.0

/-- Truncation toward zero as a real number: the rounding used by the
JavaScript `%` operator. -/
noncomputable def jsTrunc (x : ℝ) : ℝ := if 0 ≤ x then (⌊x⌋ : ℝ) else (⌈x⌉ : ℝ)

/-- The JavaScript remainder `x % y`: `x - y * trunc (x / y)` (result takes
the sign of the dividend). -/
noncomputable def jsRem (x y : ℝ) : ℝ := x - y * jsTrunc (x / y)

/-- The normalisation prologue of orbits.js `solveKepler`:
`M = M % (2π); if (M < 0) M += 2π`. -/
noncomputable def normalizeM (M : ℝ) : ℝ :=
  let m := jsRem M (2 * Real.pi)
  if m < 0 then m + 2 * Real.pi else m

/-- The Newton-Raphson loop of `solveKepler`, with explicit remaining
iteration count.  Each pass computes `dE`, updates `E`, and stops early
once `|dE| < tolerance`; when the count runs out the last `E` is returned
with no error raised. -/
noncomputable def keplerIter (e M tolerance : ℝ) : ℕ → ℝ → ℝ
  | 0, E => E
  | Nat.succ n, E =>
    let dE := (E - e * Real.sin E - M) / (1 - e * Real.cos E)
    let E2 := E - dE
    if |dE| < tolerance then E2 else keplerIter e M tolerance n E2

/-- orbits.js `solveKepler M e` with the default tolerance `1e-8` (the only
tolerance the repository ever uses): normalise `M` into `[0, 2π)`, seed
`E₀ = M + e sin M`, run at most 50 Newton-Raphson iterations. -/
noncomputable def solveKepler (M e : ℝ) : ℝ :=
  let Mn := normalizeM M
  keplerIter e Mn 1e-8 50 (Mn + e * Real.sin Mn)

/-- The per-sample math shared verbatim by `computePosition` and
`computeOrbitPath` (spec §4.3 steps 5-6): current elements at the call
date, orbital-plane coordinates `x' = a (cos E − e)`,
`y' = a √(1−e²) sin E` for eccentric anomaly `E`, and the classical
three-angle rotation to ecliptic J2000, with the matrix entries written
exactly as in the source. -/
noncomputable def orbitPoint (elements : OrbitalElements) (dateMs : ℝ) (E : ℝ) : Vec3 :=
  let jd := julianDate dateMs
  let T := centuriesSinceJ2000 jd
  let a := elements.a + elements.aRate * T
  let e := elements.e + elements.eRate * T
  let Iang := (elements.I + elements.IRate * T) * DEG2RAD
  let wBar := (elements.wBar + elements.wBarRate * T) * DEG2RAD
  let Omega := (elements.Omega + elements.OmegaRate * T) * DEG2RAD
  let omega := wBar - Omega
  let xPrime := a * (Real.cos E - e)
  let yPrime := a * Real.sqrt (1 - e * e) * Real.sin E
  let cosOmega := Real.cos Omega
  let sinOmega := Real.sin Omega
  let cosI := Real.cos Iang
  let sinI := Real.sin Iang
  let cosW := Real.cos omega
  let sinW := Real.sin omega
  ⟨(cosOmega * cosW - sinOmega * sinW * cosI) * xPrime +
     (-cosOmega * sinW - sinOmega * cosW * cosI) * yPrime,
   (sinOmega * cosW + cosOmega * sinW * cosI) * xPrime +
     (-sinOmega * sinW + cosOmega * cosW * cosI) * yPrime,
   (sinW * sinI) * xPrime + (cosW * sinI) * yPrime⟩

/-- orbits.js `computePosition`: heliocentric ecliptic position (AU) of a
body with the given elements at the given date (millisecond timestamp):
mean anomaly `M = L − wBar` from the current elements, Kepler solve for
`E`, then the shared projection `orbitPoint`. -/
noncomputable def computePosition (elements : OrbitalElements) (dateMs : ℝ) : Vec3 :=
  let T := centuriesSinceJ2000 (julianDate dateMs)
  let e := elements.e + elements.eRate * T
  let L := (elements.L + elements.LRate * T) * DEG2RAD
  let wBar := (elements.wBar + elements.wBarRate * T) * DEG2RAD
  let M := L - wBar
  orbitPoint elements dateMs (solveKepler M e)

/-- orbits.js `computeOrbitPath`: the closed orbit polyline.  The source
fixes the date once (`new Date()` at call time, external input here) and
sweeps the eccentric anomaly `E = 2πi/segments` for `i = 0..segments`,
applying the shared projection to each sample. -/
noncomputable def computeOrbitPath (elements : OrbitalElements) (dateMs : ℝ)
    (segments : ℕ) : List Vec3 :=
  (List.range (segments + 1)).map (fun (i : ℕ) =>
    orbitPoint elements dateMs ((2 * Real.pi * (i : ℝ)) / (segments : ℝ)))

/-! ### spacecraft.js -/

/-- Squared spacecraft-to-body separation `dx*dx + dy*dy + dz*dz`, the
`r2` computed in `computeGravity` and `getPerBodyGravity`. -/
def r2Of (pos bodyPos : Vec3) : ℝ :=
  (bodyPos.x - pos.x) * (bodyPos.x - pos.x) +
  (bodyPos.y - pos.y) * (bodyPos.y - pos.y) +
  (bodyPos.z - pos.z) * (bodyPos.z - pos.z)

/-- Separation distance `r = Math.sqrt r2`. -/
noncomputable def rOf (pos bodyPos : Vec3) : ℝ := Real.sqrt (r2Of pos bodyPos)

/-- One loop iteration of `computeGravity`: the acceleration contribution
of a single body, zero when the `r < 1e-10` singularity guard fires. -/
noncomputable def gravContrib (pos : Vec3) (body : Body) : Vec3 :=
  let gm := body.data.GM_AU3_day2
  let dx := body.positionAU.x - pos.x
  let dy := body.positionAU.y - pos.y
  let dz := body.positionAU.z - pos.z
  let r2 := dx * dx + dy * dy + dz * dz
  let r := Real.sqrt r2
  if r < 1e-10 then Vec3.zero
  else
    let aMag := gm / r2
    ⟨aMag * (dx / r), aMag * (dy / r), aMag * (dz / r)⟩

/-- spacecraft.js `computeGravity`: net gravitational acceleration on the
spacecraft, accumulated left to right over the body list starting from
`(0, 0, 0)`. -/
noncomputable def computeGravity (spacecraft : Spacecraft) (bodies : List Body) : Vec3 :=
  bodies.foldl (fun acc body => vadd acc (gravContrib spacecraft.positionAU body)) Vec3.zero

/-- The thrust-related input state `updateSpacecraft` reads: the W/S key
state and the mesh forward direction (a scene-space unit vector owned by
the rendering collaborator). -/
structure ThrustInput where
  thrustForward : Bool
  thrustBackward : Bool
  forward : Vec3

/-- spacecraft.js `updateSpacecraft`, restricted to the physics state
(rotation and engine-glow updates touch only the external mesh).  Thrust
delta-v first (with the scene→AU axis remap `(f.x, -f.z, f.y)` of the
source), then gravity at the pre-update position, then position from the
fully updated velocity. -/
noncomputable def updateSpacecraft (spacecraft : Spacecraft) (bodies : List Body)
    (input : ThrustInput) (dtSim : ℝ) : Spacecraft :=
  let v0 := spacecraft.velocityAU
  let v1 :=
    if input.thrustForward || input.thrustBackward then
      let sign : ℝ := if input.thrustForward then 1 else -1
      let thrustAU := spacecraft.thrustAccel * dtSim * sign
      Vec3.mk (v0.x + input.forward.x * thrustAU)
        (v0.y + (-input.forward.z) * thrustAU)
        (v0.z + input.forward.y * thrustAU)
    else v0
  let grav := computeGravity spacecraft bodies
  let v2 := Vec3.mk (v1.x + grav.x * dtSim) (v1.y + grav.y * dtSim) (v1.z + grav.z * dtSim)
  let p2 := Vec3.mk (spacecraft.positionAU.x + v2.x * dtSim)
    (spacecraft.positionAU.y + v2.y * dtSim)
    (spacecraft.positionAU.z + v2.z * dtSim)
  { spacecraft with velocityAU := v2, positionAU := p2 }

/-- spacecraft.js `AU_TO_M = AU_TO_KM * 1000` (local constant of
`getPerBodyGravity`). -/
def AU_TO_M : ℝ := AU_TO_KM * 1000

/-- One row of the per-body gravity readout pushed by
`getPerBodyGravity`. -/
structure GravityEntry where
  name : String
  distanceAU : ℝ
  distanceKm : ℝ
  gravityMs2 : ℝ

/-- The `results` array of `getPerBodyGravity` before sorting: one entry
per body, in body-list order, skipping bodies with `r < 1e-10`. -/
noncomputable def perBodyResults (spacecraft : Spacecraft) (bodies : List Body) :
    List GravityEntry :=
  bodies.filterMap (fun body =>
    let gm := body.data.GM_AU3_day2
    let r2 := r2Of spacecraft.positionAU body.positionAU
    let r := Real.sqrt r2
    if r < 1e-10 then none
    else
      let accelAU := gm / r2
      let accelMs2 := accelAU * AU_TO_M / (DAY_TO_S * DAY_TO_S)
      some ⟨body.data.name, r, r * AU_TO_KM, accelMs2⟩)

/-- spacecraft.js `getPerBodyGravity`: the per-body rows sorted by
descending `gravityMs2`.  The JS `Array.prototype.sort` comparator
`(a, b) => b.gravityMs2 - a.gravityMs2` places `a` before `b` exactly when
`b.gravityMs2 ≤ a.gravityMs2`; ES2019 guarantees the sort is stable, which
the stable `List.mergeSort` reproduces. -/
noncomputable def getPerBodyGravity (spacecraft : Spacecraft) (bodies : List Body) :
    List GravityEntry :=
  (perBodyResults spacecraft bodies).mergeSort
    (fun a b => decide (b.gravityMs2 ≤ a.gravityMs2))

/-- State-passing view of the simulation data the observers can reach,
used to express frame conditions. -/
structure SimState where
  spacecraft : Spacecraft
  bodies : List Body

/-- spacecraft.js `computeGravity` as a state transformer: the source
performs no assignment to `spacecraft.positionAU`, `spacecraft.velocityAU`
or any `body.positionAU` (only local accumulators), so the embedded
transformer returns the state unchanged alongside the value. -/
noncomputable def computeGravityS (st : SimState) : Vec3 × SimState :=
  (computeGravity st.spacecraft st.bodies, st)

/-- spacecraft.js `getPerBodyGravity` as a state transformer; as with
`computeGravityS`, the source only reads the simulation state. -/
noncomputable def getPerBodyGravityS (st : SimState) : List GravityEntry × SimState :=
  (getPerBodyGravity st.spacecraft st.bodies, st)

/-! ### Helper lemmas -/

/-- Adding the zero vector on the right is the identity. -/
theorem vadd_zero_right (v : Vec3) : vadd v Vec3.zero = v := by
  simp [vadd, Vec3.zero]

/-- A body closer than the `1e-10` AU guard contributes the zero vector in
`computeGravity`. -/
theorem gravContrib_of_close (pos : Vec3) (body : Body)
    (h : rOf pos body.positionAU < 1e-10) : gravContrib pos body = Vec3.zero := by
  simp only [rOf, r2Of] at h
  simp only [gravContrib]
  rw [if_pos h]

/-- The gravity accumulation only depends on the bodies that pass the
singularity guard. -/
theorem foldl_grav_filter (pos : Vec3) (l : List Body) (init : Vec3) :
    l.foldl (fun acc b => vadd acc (gravContrib pos b)) init
      = (l.filter (fun b => decide (1e-10 ≤ rOf pos b.positionAU))).foldl
          (fun acc b => vadd acc (gravContrib pos b)) init := by
  induction l generalizing init with
  | nil => rfl
  | cons b tl ih =>
    by_cases hb : 1e-10 ≤ rOf pos b.positionAU
    · simp [List.filter_cons, hb, ih]
    · have hz : gravContrib pos b = Vec3.zero :=
        gravContrib_of_close pos b (not_le.mp hb)
      simp [List.filter_cons, hb, hz, vadd_zero_right, ih]

/-- Example spacecraft sitting at the origin (used as a concrete input). -/
def originSc : Spacecraft := ⟨⟨0, 0, 0⟩, ⟨0, 0, 0⟩, THRUST_ACCEL⟩

/-- Example body sitting at the origin (used as a concrete input). -/
def originBody : Body := ⟨⟨"Sun", GM_SUN_AU3_DAY2⟩, ⟨0, 0, 0⟩⟩

/-! ### Claim theorems -/

/-- C1: a body whose Euclidean distance `r` from the spacecraft is less
than `1e-10` AU contributes exactly zero acceleration in `computeGravity`,
and the returned net acceleration equals the accumulation over the guarded
(distance `≥ 1e-10`) bodies only, a well-defined real vector — in this
real-number embedding no NaN or division by zero can propagate. -/
theorem computeGravity_singularity_guard (sc : Spacecraft) (bodies : List Body)
    (body : Body) (h : rOf sc.positionAU body.positionAU < 1e-10) :
    gravContrib sc.positionAU body = Vec3.zero ∧
    computeGravity sc bodies
      = computeGravity sc
          (bodies.filter (fun b => decide (1e-10 ≤ rOf sc.positionAU b.positionAU))) := by
  refine ⟨gravContrib_of_close _ _ h, ?_⟩
  rw [computeGravity, computeGravity, foldl_grav_filter]

/-- C1 witness: a spacecraft exactly at a body's position satisfies the
guard hypothesis and the conclusion. -/
theorem computeGravity_singularity_guard_witness :
    rOf originSc.positionAU originBody.positionAU < 1e-10 ∧
    (gravContrib originSc.positionAU originBody = Vec3.zero ∧
     computeGravity originSc [originBody]
       = computeGravity originSc
           ([originBody].filter
             (fun b => decide (1e-10 ≤ rOf originSc.positionAU b.positionAU)))) := by
  have h : rOf originSc.positionAU originBody.positionAU < 1e-10 := by
    simp only [rOf, r2Of, originSc, originBody]
    norm_num
  exact ⟨h, computeGravity_singularity_guard originSc [originBody] originBody h⟩

/-- The thrust acceleration vector in the AU frame: the per-step delta-v of
the source (`forward` remapped by the scene→AU axis swap, times
`thrustAccel * dtSim * sign`) equals `aThrust * dtSim`. -/
def aThrust (sc : Spacecraft) (input : ThrustInput) : Vec3 :=
  if input.thrustForward || input.thrustBackward then
    let sign : ℝ := if input.thrustForward then 1 else -1
    ⟨input.forward.x * (sc.thrustAccel * sign),
     (-input.forward.z) * (sc.thrustAccel * sign),
     input.forward.y * (sc.thrustAccel * sign)⟩
  else Vec3.zero

/-- C2: one `updateSpacecraft` step updates velocity first — thrust
delta-v, then gravitational acceleration evaluated at the pre-update
position, each scaled by `dtSim` — and then advances position by the fully
post-update velocity times `dtSim`. -/
theorem updateSpacecraft_integration_order (sc : Spacecraft) (bodies : List Body)
    (input : ThrustInput) (dtSim : ℝ) :
    (updateSpacecraft sc bodies input dtSim).velocityAU
      = vadd (vadd sc.velocityAU (smul dtSim (aThrust sc input)))
          (smul dtSim (computeGravity sc bodies))
    ∧ (updateSpacecraft sc bodies input dtSim).positionAU
      = vadd sc.positionAU
          (smul dtSim ((updateSpacecraft sc bodies input dtSim).velocityAU)) := by
  constructor
  · simp only [updateSpacecraft, aThrust, vadd, smul]
    cases hf : input.thrustForward <;> cases hb : input.thrustBackward <;>
      simp only [hf, hb, Bool.or_self, Bool.or_true, Bool.true_or, Bool.false_or,
        if_true, if_false, Bool.false_eq_true, ite_true, ite_false] <;>
      refine Vec3.ext ?_ ?_ ?_ <;> simp [Vec3.zero] <;> ring
  · simp only [updateSpacecraft, vadd, smul]
    refine Vec3.ext ?_ ?_ ?_ <;> simp <;> ring

/-- C10: the query operations `computeGravity` and `getPerBodyGravity` are
pure observers: in state-transformer form they return their value together
with an unchanged simulation state — the spacecraft position and velocity
and every body position are exactly those of the input state. -/
theorem gravity_observers_pure (st : SimState) :
    (computeGravityS st).1 = computeGravity st.spacecraft st.bodies
    ∧ (computeGravityS st).2.spacecraft.positionAU = st.spacecraft.positionAU
    ∧ (computeGravityS st).2.spacecraft.velocityAU = st.spacecraft.velocityAU
    ∧ (computeGravityS st).2.bodies.map Body.positionAU = st.bodies.map Body.positionAU
    ∧ (getPerBodyGravityS st).1 = getPerBodyGravity st.spacecraft st.bodies
    ∧ (getPerBodyGravityS st).2.spacecraft.positionAU = st.spacecraft.positionAU
    ∧ (getPerBodyGravityS st).2.spacecraft.velocityAU = st.spacecraft.velocityAU
    ∧ (getPerBodyGravityS st).2.bodies.map Body.positionAU = st.bodies.map Body.positionAU :=
  ⟨rfl, rfl, rfl, rfl, rfl, rfl, rfl, rfl⟩

/-- The JS normalisation `M % 2π` plus negative fix-up computes the
mathematical reduction of `M` modulo `2π` into `[0, 2π)`. -/
theorem normalizeM_eq_floor (M : ℝ) :
    normalizeM M = M - 2 * Real.pi * ⌊M / (2 * Real.pi)⌋ := by
  have h2pi : (0:ℝ) < 2 * Real.pi := by positivity
  have hxM : M = M / (2 * Real.pi) * (2 * Real.pi) := by field_simp
  simp only [normalizeM, jsRem, jsTrunc]
  by_cases hM : 0 ≤ M / (2 * Real.pi)
  · rw [if_pos hM]
    have hfl : (⌊M / (2 * Real.pi)⌋ : ℝ) ≤ M / (2 * Real.pi) := Int.floor_le _
    have hnonneg : 0 ≤ M - 2 * Real.pi * ⌊M / (2 * Real.pi)⌋ := by nlinarith
    rw [if_neg (not_lt.mpr hnonneg)]
  · rw [if_neg hM]
    push_neg at hM
    have hceil : M / (2 * Real.pi) ≤ (⌈M / (2 * Real.pi)⌉ : ℝ) := Int.le_ceil _
    by_cases hz : M - 2 * Real.pi * ⌈M / (2 * Real.pi)⌉ < 0
    · rw [if_pos hz]
      have hlt : M / (2 * Real.pi) < (⌈M / (2 * Real.pi)⌉ : ℝ) := by nlinarith
      have hge : ⌊M / (2 * Real.pi)⌋ ≤ ⌈M / (2 * Real.pi)⌉ := Int.floor_le_ceil _
      have hle : ⌈M / (2 * Real.pi)⌉ ≤ ⌊M / (2 * Real.pi)⌋ + 1 :=
        Int.ceil_le_floor_add_one _
      have hne : ⌈M / (2 * Real.pi)⌉ ≠ ⌊M / (2 * Real.pi)⌋ := by
        intro he
        have hfl : (⌊M / (2 * Real.pi)⌋ : ℝ) ≤ M / (2 * Real.pi) := Int.floor_le _
        rw [he] at hlt
        exact absurd hfl (not_le.mpr hlt)
      have hsucc : ⌈M / (2 * Real.pi)⌉ = ⌊M / (2 * Real.pi)⌋ + 1 := by omega
      rw [hsucc]
      push_cast
      ring
    · rw [if_neg hz]
      push_neg at hz
      have hle0 : M - 2 * Real.pi * ⌈M / (2 * Real.pi)⌉ ≤ 0 := by nlinarith
      have heq0 : M - 2 * Real.pi * ⌈M / (2 * Real.pi)⌉ = 0 := le_antisymm hle0 hz
      have hxint : M / (2 * Real.pi) = (⌈M / (2 * Real.pi)⌉ : ℝ) := by
        rw [div_eq_iff (ne_of_gt h2pi)]
        linarith
      have hfc : ⌊M / (2 * Real.pi)⌋ = ⌈M / (2 * Real.pi)⌉ := by
        rw [hxint, Int.floor_intCast, Int.ceil_intCast]
      rw [hfc]

/-- Shifting the mean anomaly by an integer multiple of `2π` does not
change its normalisation. -/
theorem normalizeM_add_two_pi_int (M : ℝ) (k : ℤ) :
    normalizeM (M + 2 * Real.pi * k) = normalizeM M := by
  rw [normalizeM_eq_floor, normalizeM_eq_floor]
  have h2pi : (2 * Real.pi) ≠ 0 := by positivity
  have hdiv : (M + 2 * Real.pi * k) / (2 * Real.pi) = M / (2 * Real.pi) + k := by
    field_simp
    ring
  rw [hdiv, Int.floor_add_int]
  push_cast
  ring

/-- C4: for every real mean anomaly `M`, eccentricity `e ∈ [0, 1)` and
integer `k`, `solveKepler (M + 2πk) e = solveKepler M e` — the solver
normalises `M` into `[0, 2π)` before iterating, so shifted inputs produce
identical outputs. -/
theorem solveKepler_mean_anomaly_periodic (M e : ℝ) (k : ℤ)
    (he0 : 0 ≤ e) (he1 : e < 1) :
    solveKepler (M + 2 * Real.pi * k) e = solveKepler M e := by
  simp only [solveKepler, normalizeM_add_two_pi_int]

/-- C4 witness: concrete instance at `M = 1`, `e = 1/2`, `k = 3`. -/
theorem solveKepler_mean_anomaly_periodic_witness :
    (0:ℝ) ≤ 1/2 ∧ (1/2 : ℝ) < 1 ∧
    solveKepler (1 + 2 * Real.pi * ((3:ℤ) : ℝ)) (1/2) = solveKepler 1 (1/2) :=
  ⟨by norm_num, by norm_num,
    solveKepler_mean_anomaly_periodic 1 (1/2) 3 (by norm_num) (by norm_num)⟩

/-- C7: `computeOrbitPath` sweeps `E = 2πi/segments` for `i = 0..segments`,
so it produces `segments + 1` points and its first and last points
coincide exactly: `E = 0` and `E = 2π` map to the same orbital-plane
point. -/
theorem computeOrbitPath_closed_loop (el : OrbitalElements) (dateMs : ℝ)
    (segments : ℕ) (hseg : 1 ≤ segments) :
    (computeOrbitPath el dateMs segments).length = segments + 1 ∧
    (computeOrbitPath el dateMs segments).head?
      = (computeOrbitPath el dateMs segments).getLast? := by
  have hn0 : segments ≠ 0 := by omega
  have hnR : (segments : ℝ) ≠ 0 := Nat.cast_ne_zero.mpr hn0
  have hEn : 2 * Real.pi * (segments : ℝ) / (segments : ℝ) = 2 * Real.pi := by
    rw [mul_div_assoc, div_self hnR, mul_one]
  have hpt : orbitPoint el dateMs (2 * Real.pi) = orbitPoint el dateMs 0 := by
    simp only [orbitPoint, Real.cos_two_pi, Real.sin_two_pi, Real.cos_zero, Real.sin_zero]
  constructor
  · simp only [computeOrbitPath, List.length_map, List.length_range]
  · simp only [computeOrbitPath]
    rw [List.head?_map, List.getLast?_map, List.head?_range,
      if_neg (by omega : ¬ segments + 1 = 0), List.range_succ, List.getLast?_concat]
    simp only [Option.map_some']
    have h0 : 2 * Real.pi * ((0:ℕ) : ℝ) / (segments : ℝ) = 0 := by norm_num
    rw [h0, hEn, hpt]

/-- Concrete orbital element record with `a = 1` and every other entry
zero, used as witness input. -/
def unitElements : OrbitalElements := ⟨1, 0, 0, 0, 0, 0, 0, 0, 0, 0, 0, 0⟩

/-- C7 witness: the default 128-segment path over the unit circular
elements at timestamp 0 is closed and has 129 points. -/
theorem computeOrbitPath_closed_loop_witness :
    1 ≤ 128 ∧
    ((computeOrbitPath unitElements 0 128).length = 128 + 1 ∧
     (computeOrbitPath unitElements 0 128).head?
       = (computeOrbitPath unitElements 0 128).getLast?) :=
  ⟨by norm_num, computeOrbitPath_closed_loop unitElements 0 128 (by norm_num)⟩

/-- The three-angle Keplerian-to-ecliptic rotation written out in the
source preserves the sum of squares: for a circular sample
`(A (cE − 0), A q sE)` with `q = √(1 − 0·0) = 1` and unit cosine/sine
pairs, the resulting vector has squared norm `A²`. -/
theorem rot3_circle (cO sO cI sI cW sW cE sE A q : ℝ)
    (hO : cO * cO + sO * sO = 1) (hI : cI * cI + sI * sI = 1)
    (hW : cW * cW + sW * sW = 1) (hE : cE * cE + sE * sE = 1)
    (hq : q = 1) :
    ((cO * cW - sO * sW * cI) * (A * (cE - 0)) + (-cO * sW - sO * cW * cI) * (A * q * sE)) *
      ((cO * cW - sO * sW * cI) * (A * (cE - 0)) + (-cO * sW - sO * cW * cI) * (A * q * sE)) +
    ((sO * cW + cO * sW * cI) * (A * (cE - 0)) + (-sO * sW + cO * cW * cI) * (A * q * sE)) *
      ((sO * cW + cO * sW * cI) * (A * (cE - 0)) + (-sO * sW + cO * cW * cI) * (A * q * sE)) +
    ((sW * sI) * (A * (cE - 0)) + (cW * sI) * (A * q * sE)) *
      ((sW * sI) * (A * (cE - 0)) + (cW * sI) * (A * q * sE))
      = A * A := by
  subst hq
  linear_combination
    ((cW * (A * cE) - sW * (A * sE))^2 + (cI * (sW * (A * cE) + cW * (A * sE)))^2) * hO +
    ((sW * (A * cE) + cW * (A * sE))^2) * hI +
    ((A * cE)^2 + (A * sE)^2) * hW +
    (A^2) * hE

/-- For elements whose current eccentricity is zero, every projected orbit
sample lies at distance `a` (the current semi-major axis) from the
origin. -/
theorem vnorm_orbitPoint_circular (el : OrbitalElements) (dateMs E : ℝ)
    (hE0 : el.e + el.eRate * centuriesSinceJ2000 (julianDate dateMs) = 0)
    (hA : 0 ≤ el.a + el.aRate * centuriesSinceJ2000 (julianDate dateMs)) :
    vnorm (orbitPoint el dateMs E)
      = el.a + el.aRate * centuriesSinceJ2000 (julianDate dateMs) := by
  simp only [orbitPoint, vnorm]
  rw [hE0]
  rw [rot3_circle
    (Real.cos ((el.Omega + el.OmegaRate * centuriesSinceJ2000 (julianDate dateMs)) * DEG2RAD))
    (Real.sin ((el.Omega + el.OmegaRate * centuriesSinceJ2000 (julianDate dateMs)) * DEG2RAD))
    (Real.cos ((el.I + el.IRate * centuriesSinceJ2000 (julianDate dateMs)) * DEG2RAD))
    (Real.sin ((el.I + el.IRate * centuriesSinceJ2000 (julianDate dateMs)) * DEG2RAD))
    (Real.cos ((el.wBar + el.wBarRate * centuriesSinceJ2000 (julianDate dateMs)) * DEG2RAD
      - (el.Omega + el.OmegaRate * centuriesSinceJ2000 (julianDate dateMs)) * DEG2RAD))
    (Real.sin ((el.wBar + el.wBarRate * centuriesSinceJ2000 (julianDate dateMs)) * DEG2RAD
      - (el.Omega + el.OmegaRate * centuriesSinceJ2000 (julianDate dateMs)) * DEG2RAD))
    (Real.cos E) (Real.sin E)
    (el.a + el.aRate * centuriesSinceJ2000 (julianDate dateMs))
    (Real.sqrt (1 - 0 * 0))
    (by rw [← Real.cos_sq_add_sin_sq
        ((el.Omega + el.OmegaRate * centuriesSinceJ2000 (julianDate dateMs)) * DEG2RAD)]
        ring)
    (by rw [← Real.cos_sq_add_sin_sq
        ((el.I + el.IRate * centuriesSinceJ2000 (julianDate dateMs)) * DEG2RAD)]
        ring)
    (by rw [← Real.cos_sq_add_sin_sq
        ((el.wBar + el.wBarRate * centuriesSinceJ2000 (julianDate dateMs)) * DEG2RAD
          - (el.Omega + el.OmegaRate * centuriesSinceJ2000 (julianDate dateMs)) * DEG2RAD)]
        ring)
    (by rw [← Real.cos_sq_add_sin_sq E]
        ring)
    (by rw [(by norm_num : (1:ℝ) - 0 * 0 = 1), Real.sqrt_one])]
  exact Real.sqrt_mul_self hA

/-- C8: for every date and every element set whose current eccentricity is
zero at that date, the position returned by `computePosition` lies at
Euclidean distance from the origin equal to the current (nonnegative)
semi-major axis: the orbital-plane point has norm `a` and the three-angle
rotation preserves norms. -/
theorem computePosition_circular_radius (el : OrbitalElements) (dateMs : ℝ)
    (hE0 : el.e + el.eRate * centuriesSinceJ2000 (julianDate dateMs) = 0)
    (hA : 0 ≤ el.a + el.aRate * centuriesSinceJ2000 (julianDate dateMs)) :
    vnorm (computePosition el dateMs)
      = el.a + el.aRate * centuriesSinceJ2000 (julianDate dateMs) := by
  have hcp : computePosition el dateMs
      = orbitPoint el dateMs (solveKepler
          ((el.L + el.LRate * centuriesSinceJ2000 (julianDate dateMs)) * DEG2RAD
            - (el.wBar + el.wBarRate * centuriesSinceJ2000 (julianDate dateMs)) * DEG2RAD)
          (el.e + el.eRate * centuriesSinceJ2000 (julianDate dateMs))) := rfl
  rw [hcp]
  exact vnorm_orbitPoint_circular el dateMs _ hE0 hA

/-- C8 witness: the `a = 1, e = 0` element record at timestamp 0. -/
theorem computePosition_circular_radius_witness :
    unitElements.e + unitElements.eRate * centuriesSinceJ2000 (julianDate 0) = 0 ∧
    0 ≤ unitElements.a + unitElements.aRate * centuriesSinceJ2000 (julianDate 0) ∧
    vnorm (computePosition unitElements 0)
      = unitElements.a + unitElements.aRate * centuriesSinceJ2000 (julianDate 0) := by
  have h1 : unitElements.e + unitElements.eRate * centuriesSinceJ2000 (julianDate 0) = 0 := by
    norm_num [unitElements]
  have h2 : 0 ≤ unitElements.a + unitElements.aRate * centuriesSinceJ2000 (julianDate 0) := by
    norm_num [unitElements]
  exact ⟨h1, h2, computePosition_circular_radius unitElements 0 h1 h2⟩

/-- A body with zero gravitational parameter contributes zero acceleration
whether or not the guard fires. -/
theorem gravContrib_of_gm_zero (pos : Vec3) (body : Body)
    (h : body.data.GM_AU3_day2 = 0) : gravContrib pos body = Vec3.zero := by
  simp only [gravContrib, h]
  split
  · rfl
  · simp [Vec3.zero]

/-- When every body has zero gravitational parameter the net gravitational
acceleration vanishes. -/
theorem computeGravity_of_gm_zero (sc : Spacecraft) (bodies : List Body)
    (h : ∀ b ∈ bodies, b.data.GM_AU3_day2 = 0) :
    computeGravity sc bodies = Vec3.zero := by
  rw [computeGravity]
  have haux : ∀ (l : List Body), (∀ b ∈ l, b.data.GM_AU3_day2 = 0) → ∀ init : Vec3,
      l.foldl (fun acc b => vadd acc (gravContrib sc.positionAU b)) init = init := by
    intro l
    induction l with
    | nil => intro _ init; rfl
    | cons b tl ih =>
      intro hl init
      rw [List.forall_mem_cons] at hl
      rw [List.foldl_cons, gravContrib_of_gm_zero sc.positionAU b hl.1,
        vadd_zero_right]
      exact ih hl.2 init
  exact haux bodies h Vec3.zero

/-- If the squared components of a vector sum to `c·c` with `c ≥ 0`, then
its norm is `c`. -/
theorem vnorm_eq_of_sumsq (v : Vec3) (c : ℝ) (hc : 0 ≤ c)
    (h : v.x * v.x + v.y * v.y + v.z * v.z = c * c) : vnorm v = c := by
  rw [vnorm, h]
  exact Real.sqrt_mul_self hc

/-- A scene-space forward vector aligned with one of the coordinate axes
(the "axis-aligned unit forward direction" of the thrust scenario). -/
def IsAxisUnit (v : Vec3) : Prop :=
  v = ⟨1, 0, 0⟩ ∨ v = ⟨-1, 0, 0⟩ ∨ v = ⟨0, 1, 0⟩ ∨
  v = ⟨0, -1, 0⟩ ∨ v = ⟨0, 0, 1⟩ ∨ v = ⟨0, 0, -1⟩

/-- C5: a spacecraft with zero initial velocity, axis-aligned unit forward
direction and thrust acceleration `0.0005` AU/day², thrusting forward for
one `updateSpacecraft` step with `dtSim = 1` and `GM = 0` for all bodies,
ends with speed exactly `0.0005` AU/day and position displaced by exactly
`0.0005` AU (post-thrust velocity over the full step). -/
theorem updateSpacecraft_thrust_scenario (sc : Spacecraft) (bodies : List Body)
    (input : ThrustInput)
    (hv : sc.velocityAU = Vec3.zero) (ht : sc.thrustAccel = 0.0005)
    (hf : input.thrustForward = true) (hb : input.thrustBackward = false)
    (hax : IsAxisUnit input.forward)
    (hgm : ∀ b ∈ bodies, b.data.GM_AU3_day2 = 0) :
    vnorm (updateSpacecraft sc bodies input 1).velocityAU = 0.0005 ∧
    vnorm (vsub (updateSpacecraft sc bodies input 1).positionAU sc.positionAU) = 0.0005 := by
  have hg : computeGravity sc bodies = Vec3.zero := computeGravity_of_gm_zero sc bodies hgm
  rcases hax with h | h | h | h | h | h <;>
    refine ⟨vnorm_eq_of_sumsq _ 0.0005 (by norm_num) ?_,
            vnorm_eq_of_sumsq _ 0.0005 (by norm_num) ?_⟩ <;>
    simp only [updateSpacecraft, vsub, hf, hb, hv, ht, hg, h, Vec3.zero] <;>
    norm_num

/-- Concrete thrust input: W pressed, forward along the scene −Z axis. -/
def thrustInput0 : ThrustInput := ⟨true, false, ⟨0, 0, -1⟩⟩

/-- Concrete spacecraft for the thrust scenario: at rest near 1 AU with
the source's thrust acceleration. -/
def thrustSc0 : Spacecraft := ⟨⟨1.05, 0, 0.01⟩, ⟨0, 0, 0⟩, 0.0005⟩

/-- C5 witness: the concrete scenario with no bodies satisfies every
hypothesis and the conclusion. -/
theorem updateSpacecraft_thrust_scenario_witness :
    thrustSc0.velocityAU = Vec3.zero ∧ thrustSc0.thrustAccel = 0.0005 ∧
    thrustInput0.thrustForward = true ∧ thrustInput0.thrustBackward = false ∧
    IsAxisUnit thrustInput0.forward ∧
    (∀ b ∈ ([] : List Body), b.data.GM_AU3_day2 = 0) ∧
    (vnorm (updateSpacecraft thrustSc0 [] thrustInput0 1).velocityAU = 0.0005 ∧
     vnorm (vsub (updateSpacecraft thrustSc0 [] thrustInput0 1).positionAU
       thrustSc0.positionAU) = 0.0005) :=
  ⟨rfl, rfl, rfl, rfl,
    Or.inr (Or.inr (Or.inr (Or.inr (Or.inr rfl)))),
    by simp,
    updateSpacecraft_thrust_scenario thrustSc0 [] thrustInput0 rfl rfl rfl rfl
      (Or.inr (Or.inr (Or.inr (Or.inr (Or.inr rfl))))) (by simp)⟩

/-- The sort comparator of `getPerBodyGravity` is transitive. -/
theorem perBodyLe_trans (a b c : GravityEntry)
    (hab : decide (b.gravityMs2 ≤ a.gravityMs2) = true)
    (hbc : decide (c.gravityMs2 ≤ b.gravityMs2) = true) :
    decide (c.gravityMs2 ≤ a.gravityMs2) = true := by
  simp only [decide_eq_true_eq] at hab hbc ⊢
  exact le_trans hbc hab

/-- The sort comparator of `getPerBodyGravity` is total. -/
theorem perBodyLe_total (a b : GravityEntry) :
    (decide (b.gravityMs2 ≤ a.gravityMs2) || decide (a.gravityMs2 ≤ b.gravityMs2)) = true := by
  rcases le_total b.gravityMs2 a.gravityMs2 with h | h <;> simp [h]

/-- C6: the list returned by `getPerBodyGravity` is sorted in descending
order of `gravityMs2`, and entries with exactly equal magnitudes keep
their insertion (input) order: filtering the output at any fixed magnitude
yields exactly the corresponding slice of the unsorted `results` array. -/
theorem getPerBodyGravity_sorted_descending_stable (sc : Spacecraft) (bodies : List Body) :
    (getPerBodyGravity sc bodies).Pairwise (fun a b => b.gravityMs2 ≤ a.gravityMs2) ∧
    ∀ g : ℝ, (getPerBodyGravity sc bodies).filter (fun en => decide (en.gravityMs2 = g))
      = (perBodyResults sc bodies).filter (fun en => decide (en.gravityMs2 = g)) := by
  constructor
  · rw [getPerBodyGravity]
    refine List.Pairwise.imp ?_
      (List.sorted_mergeSort perBodyLe_trans perBodyLe_total (perBodyResults sc bodies))
    intro a b hab
    exact of_decide_eq_true hab
  · intro g
    have hmem : ∀ en ∈ (perBodyResults sc bodies).filter
        (fun en => decide (en.gravityMs2 = g)), en.gravityMs2 = g := by
      intro en hen
      exact of_decide_eq_true (List.mem_filter.mp hen).2
    have hcpair : ((perBodyResults sc bodies).filter
        (fun en => decide (en.gravityMs2 = g))).Pairwise
          (fun a b => decide (b.gravityMs2 ≤ a.gravityMs2) = true) := by
      refine List.pairwise_of_forall_mem_list ?_
      intro a ha b hb
      rw [hmem a ha, hmem b hb]
      simp
    have hsub1 : List.Sublist ((perBodyResults sc bodies).filter
        (fun en => decide (en.gravityMs2 = g))) (perBodyResults sc bodies) :=
      List.filter_sublist _
    have hsub2 : List.Sublist ((perBodyResults sc bodies).filter
        (fun en => decide (en.gravityMs2 = g))) (getPerBodyGravity sc bodies) := by
      rw [getPerBodyGravity]
      exact List.sublist_mergeSort perBodyLe_trans perBodyLe_total hcpair hsub1
    have hself : ((perBodyResults sc bodies).filter
        (fun en => decide (en.gravityMs2 = g))).filter
          (fun en => decide (en.gravityMs2 = g))
        = (perBodyResults sc bodies).filter (fun en => decide (en.gravityMs2 = g)) := by
      refine List.filter_eq_self.mpr ?_
      intro a ha
      exact decide_eq_true (hmem a ha)
    have hsub3 : List.Sublist ((perBodyResults sc bodies).filter
        (fun en => decide (en.gravityMs2 = g)))
          ((getPerBodyGravity sc bodies).filter (fun en => decide (en.gravityMs2 = g))) := by
      have h := hsub2.filter (fun en => decide (en.gravityMs2 = g))
      rwa [hself] at h
    have hperm : List.Perm
        ((getPerBodyGravity sc bodies).filter (fun en => decide (en.gravityMs2 = g)))
        ((perBodyResults sc bodies).filter (fun en => decide (en.gravityMs2 = g))) := by
      rw [getPerBodyGravity]
      exact (List.mergeSort_perm _ _).filter _
    exact (hsub3.eq_of_length hperm.length_eq.symm).symm

/-- C9 counterexample: a body coincident with the spacecraft produces no
entry, so `getPerBodyGravity` does not return one entry per body of the
input set. -/
theorem getPerBodyGravity_skips_coincident_body :
    (getPerBodyGravity originSc [originBody]).length
      ≠ ([originBody] : List Body).length := by
  have hlt : Real.sqrt (r2Of originSc.positionAU originBody.positionAU) < 1e-10 := by
    norm_num [r2Of, originSc, originBody]
  have hres : perBodyResults originSc [originBody] = [] := by
    simp [perBodyResults, hlt]
  rw [getPerBodyGravity, hres, List.mergeSort_nil]
  simp

/-- C9 as amended: `getPerBodyGravity` returns, up to the descending sort,
exactly one entry per body at distance `≥ 1e-10` AU (closer bodies are
skipped by the singularity guard), each reporting the body's name, its
distance in AU, that distance converted to kilometres via `AU_TO_KM`, and
the acceleration magnitude `GM/r²` converted from AU/day² to m/s² via the
fixed `AU_TO_M` and `DAY_TO_S` constants. -/
theorem getPerBodyGravity_entries_far_bodies (sc : Spacecraft) (bodies : List Body) :
    List.Perm (getPerBodyGravity sc bodies)
      ((bodies.filter (fun b => decide (1e-10 ≤ rOf sc.positionAU b.positionAU))).map
        (fun b => (⟨b.data.name, rOf sc.positionAU b.positionAU,
          rOf sc.positionAU b.positionAU * AU_TO_KM,
          b.data.GM_AU3_day2 / r2Of sc.positionAU b.positionAU * AU_TO_M
            / (DAY_TO_S * DAY_TO_S)⟩ : GravityEntry))) := by
  have hres : perBodyResults sc bodies
      = (bodies.filter (fun b => decide (1e-10 ≤ rOf sc.positionAU b.positionAU))).map
          (fun b => (⟨b.data.name, rOf sc.positionAU b.positionAU,
            rOf sc.positionAU b.positionAU * AU_TO_KM,
            b.data.GM_AU3_day2 / r2Of sc.positionAU b.positionAU * AU_TO_M
              / (DAY_TO_S * DAY_TO_S)⟩ : GravityEntry)) := by
    induction bodies with
    | nil => rfl
    | cons b tl ih =>
      by_cases hb : 1e-10 ≤ rOf sc.positionAU b.positionAU
      · have hb2 : 1e-10 ≤ Real.sqrt (r2Of sc.positionAU b.positionAU) := by
          simpa [rOf] using hb
        have hnot : ¬ (Real.sqrt (r2Of sc.positionAU b.positionAU) < 1e-10) :=
          not_lt.mpr hb2
        simp [perBodyResults, List.filter_cons, hb2, hnot, rOf] at ih ⊢
        exact ih
      · have hlt : Real.sqrt (r2Of sc.positionAU b.positionAU) < 1e-10 := by
          simp only [rOf] at hb
          exact not_le.mp hb
        have hnle : ¬ (1e-10 ≤ Real.sqrt (r2Of sc.positionAU b.positionAU)) :=
          not_le.mpr hlt
        simp [perBodyResults, List.filter_cons, hlt, hnle, rOf] at ih ⊢
        exact ih
  rw [getPerBodyGravity, hres]
  exact List.mergeSort_perm _ _

/-! ### Analytic toolkit for the Kepler-solver convergence proof -/

/-- Monotonicity on an interval from a pointwise derivative that is
nonnegative there. -/
theorem le_of_hasDerivAt_nonneg {h hp : ℝ → ℝ} {a b : ℝ}
    (hd : ∀ x, HasDerivAt h (hp x) x)
    (hnn : ∀ x ∈ Set.Icc a b, 0 ≤ hp x) (hab : a ≤ b) : h a ≤ h b := by
  have hmono : MonotoneOn h (Set.Icc a b) := by
    apply monotoneOn_of_deriv_nonneg (convex_Icc a b)
    · exact fun x _ => (hd x).continuousAt.continuousWithinAt
    · exact fun x _ => (hd x).differentiableAt.differentiableWithinAt
    · intro x hx
      rw [interior_Icc] at hx
      rw [(hd x).deriv]
      exact hnn x ⟨hx.1.le, hx.2.le⟩
  exact hmono ⟨le_refl a, hab⟩ ⟨hab, le_refl b⟩ hab

/-- Cubic lower Taylor bound for the sine on the nonnegative axis. -/
theorem sin_ge_cubic (x : ℝ) (hx : 0 ≤ x) : x - x^3/6 ≤ Real.sin x := by
  have key : ∀ t : ℝ, HasDerivAt (fun t => Real.sin t - t + t^3/6)
      (Real.cos t - 1 + 3*t^2/6) t := by
    intro t
    have h1 : HasDerivAt (fun t : ℝ => Real.sin t - t + t^3/6)
        (Real.cos t - 1 + 3*t^(3-1)/6) t :=
      ((Real.hasDerivAt_sin t).sub (hasDerivAt_id t)).add ((hasDerivAt_pow 3 t).div_const 6)
    norm_num at h1
    exact h1
  have h0 : (fun t : ℝ => Real.sin t - t + t^3/6) 0 ≤
      (fun t : ℝ => Real.sin t - t + t^3/6) x := by
    apply le_of_hasDerivAt_nonneg key _ hx
    intro t _
    have := Real.one_sub_sq_div_two_le_cos (x := t)
    nlinarith [this]
  simp only [Real.sin_zero] at h0
  nlinarith [h0]

/-- Quartic upper Taylor bound for the cosine on the nonnegative axis. -/
theorem cos_le_quartic (x : ℝ) (hx : 0 ≤ x) : Real.cos x ≤ 1 - x^2/2 + x^4/24 := by
  have key : ∀ t : ℝ, HasDerivAt (fun t => 1 - t^2/2 + t^4/24 - Real.cos t)
      (-(2*t)/2 + 4*t^3/24 + Real.sin t) t := by
    intro t
    have h1 : HasDerivAt (fun t : ℝ => 1 - t^2/2 + t^4/24 - Real.cos t)
        (0 - (2*t^(2-1))/2 + 4*t^(4-1)/24 - (-Real.sin t)) t :=
      (((hasDerivAt_const t (1:ℝ)).sub ((hasDerivAt_pow 2 t).div_const 2)).add
        ((hasDerivAt_pow 4 t).div_const 24)).sub (Real.hasDerivAt_cos t)
    norm_num at h1 ⊢
    convert h1 using 1 <;> ring
  have h0 : (fun t : ℝ => 1 - t^2/2 + t^4/24 - Real.cos t) 0 ≤
      (fun t : ℝ => 1 - t^2/2 + t^4/24 - Real.cos t) x := by
    apply le_of_hasDerivAt_nonneg key _ hx
    intro t ht
    have := sin_ge_cubic t ht.1
    nlinarith [this]
  simp only [Real.cos_zero] at h0
  nlinarith [h0]

/-- Quintic upper Taylor bound for the sine on the nonnegative axis. -/
theorem sin_le_quintic (x : ℝ) (hx : 0 ≤ x) : Real.sin x ≤ x - x^3/6 + x^5/120 := by
  have key : ∀ t : ℝ, HasDerivAt (fun t => t - t^3/6 + t^5/120 - Real.sin t)
      (1 - 3*t^2/6 + 5*t^4/120 - Real.cos t) t := by
    intro t
    have h1 : HasDerivAt (fun t : ℝ => t - t^3/6 + t^5/120 - Real.sin t)
        (1 - 3*t^(3-1)/6 + 5*t^(5-1)/120 - Real.cos t) t :=
      (((hasDerivAt_id t).sub ((hasDerivAt_pow 3 t).div_const 6)).add
        ((hasDerivAt_pow 5 t).div_const 120)).sub (Real.hasDerivAt_sin t)
    norm_num at h1 ⊢
    exact h1
  have h0 : (fun t : ℝ => t - t^3/6 + t^5/120 - Real.sin t) 0 ≤
      (fun t : ℝ => t - t^3/6 + t^5/120 - Real.sin t) x := by
    apply le_of_hasDerivAt_nonneg key _ hx
    intro t ht
    have := cos_le_quartic t ht.1
    nlinarith [this]
  simp only [Real.sin_zero] at h0
  nlinarith [h0]

/-- Chord bound: on `[x, 2π − x]` the sine grows no faster than the
tangent slope `cos x` at the left endpoint. -/
theorem sin_sub_sin_le_mul_cos {x y : ℝ} (hx : 0 ≤ x) (hxy : x ≤ y)
    (hy : y ≤ 2 * Real.pi - x) :
    Real.sin y - Real.sin x ≤ (y - x) * Real.cos x := by
  have hxpi : x ≤ Real.pi := by
    have := Real.pi_pos
    linarith
  have key : ∀ t : ℝ, HasDerivAt (fun t => (t - x) * Real.cos x - Real.sin t + Real.sin x)
      (Real.cos x - Real.cos t) t := by
    intro t
    have h1 : HasDerivAt (fun t : ℝ => (t - x) * Real.cos x - Real.sin t + Real.sin x)
        (1 * Real.cos x - Real.cos t) t :=
      (((hasDerivAt_id t).sub_const x).mul_const (Real.cos x)).sub
        (Real.hasDerivAt_sin t) |>.add_const (Real.sin x)
    norm_num at h1
    exact h1
  have h0 : (fun t : ℝ => (t - x) * Real.cos x - Real.sin t + Real.sin x) x ≤
      (fun t : ℝ => (t - x) * Real.cos x - Real.sin t + Real.sin x) y := by
    apply le_of_hasDerivAt_nonneg key _ hxy
    intro t ht
    have hcos : Real.cos t ≤ Real.cos x := by
      rcases le_or_lt t Real.pi with htpi | htpi
      · exact Real.cos_le_cos_of_nonneg_of_le_pi hx htpi ht.1
      · have h2 : Real.cos t = Real.cos (2 * Real.pi - t) := (Real.cos_two_pi_sub t).symm
        rw [h2]
        exact Real.cos_le_cos_of_nonneg_of_le_pi hx (by linarith) (by linarith [ht.2])
    linarith
  dsimp only at h0
  nlinarith [h0]

/-- Chord bound from the right: on `[a, b] ⊆ [0, π]` the sine grows at
least as fast as the tangent slope `cos b` at the right endpoint. -/
theorem mul_cos_le_sin_sub_sin {a b : ℝ} (ha : 0 ≤ a) (hab : a ≤ b)
    (hb : b ≤ Real.pi) :
    (b - a) * Real.cos b ≤ Real.sin b - Real.sin a := by
  have key : ∀ t : ℝ, HasDerivAt (fun t => Real.sin t + (b - t) * Real.cos b)
      (Real.cos t - Real.cos b) t := by
    intro t
    have h1 : HasDerivAt (fun t : ℝ => Real.sin t + (b - t) * Real.cos b)
        (Real.cos t + (0 - 1) * Real.cos b) t :=
      (Real.hasDerivAt_sin t).add (((hasDerivAt_const t b).sub (hasDerivAt_id t)).mul_const
        (Real.cos b))
    norm_num at h1
    convert h1 using 1 <;> ring
  have h0 : (fun t : ℝ => Real.sin t + (b - t) * Real.cos b) a ≤
      (fun t : ℝ => Real.sin t + (b - t) * Real.cos b) b := by
    apply le_of_hasDerivAt_nonneg key _ hab
    intro t ht
    have hcos : Real.cos b ≤ Real.cos t := by
      exact Real.cos_le_cos_of_nonneg_of_le_pi (le_trans ha ht.1) hb ht.2
    linarith
  dsimp only at h0
  nlinarith [h0]

/-- Cusa-Huygens chain, first link: `sin x − x cos x ≥ 0` on `[0, π]`. -/
theorem sin_sub_mul_cos_nonneg {x : ℝ} (hx : 0 ≤ x) (hxpi : x ≤ Real.pi) :
    0 ≤ Real.sin x - x * Real.cos x := by
  have key : ∀ t : ℝ, HasDerivAt (fun t => Real.sin t - t * Real.cos t)
      (t * Real.sin t) t := by
    intro t
    have h1 : HasDerivAt (fun t : ℝ => Real.sin t - t * Real.cos t)
        (Real.cos t - (1 * Real.cos t + t * -Real.sin t)) t :=
      (Real.hasDerivAt_sin t).sub ((hasDerivAt_id t).mul (Real.hasDerivAt_cos t))
    convert h1 using 1 <;> ring
  have h0 : (fun t : ℝ => Real.sin t - t * Real.cos t) 0 ≤
      (fun t : ℝ => Real.sin t - t * Real.cos t) x := by
    apply le_of_hasDerivAt_nonneg key _ hx
    intro t ht
    exact mul_nonneg ht.1 (Real.sin_nonneg_of_nonneg_of_le_pi ht.1 (le_trans ht.2 hxpi))
  simp only [Real.sin_zero, Real.cos_zero, zero_mul, mul_one, sub_zero] at h0
  linarith [h0]

/-- Cusa-Huygens chain, second link: `2 − 2 cos x − x sin x ≥ 0` on `[0, π]`. -/
theorem two_sub_two_cos_sub_mul_sin_nonneg {x : ℝ} (hx : 0 ≤ x) (hxpi : x ≤ Real.pi) :
    0 ≤ 2 - 2 * Real.cos x - x * Real.sin x := by
  have key : ∀ t : ℝ, HasDerivAt (fun t => 2 - 2 * Real.cos t - t * Real.sin t)
      (Real.sin t - t * Real.cos t) t := by
    intro t
    have h1 : HasDerivAt (fun t : ℝ => 2 - 2 * Real.cos t - t * Real.sin t)
        (0 - 2 * -Real.sin t - (1 * Real.sin t + t * Real.cos t)) t :=
      ((hasDerivAt_const t (2:ℝ)).sub ((Real.hasDerivAt_cos t).const_mul 2)).sub
        ((hasDerivAt_id t).mul (Real.hasDerivAt_sin t))
    convert h1 using 1 <;> ring
  have h0 : (fun t : ℝ => 2 - 2 * Real.cos t - t * Real.sin t) 0 ≤
      (fun t : ℝ => 2 - 2 * Real.cos t - t * Real.sin t) x := by
    apply le_of_hasDerivAt_nonneg key _ hx
    intro t ht
    exact sin_sub_mul_cos_nonneg ht.1 (le_trans ht.2 hxpi)
  simp only [Real.cos_zero, Real.sin_zero, mul_one, zero_mul, sub_zero] at h0
  linarith [h0]

/-- Cusa-Huygens inequality: `3 sin x ≤ x (2 + cos x)` on `[0, π]`. -/
theorem cusa_huygens {x : ℝ} (hx : 0 ≤ x) (hxpi : x ≤ Real.pi) :
    3 * Real.sin x ≤ x * (2 + Real.cos x) := by
  have key : ∀ t : ℝ, HasDerivAt (fun t => t * (2 + Real.cos t) - 3 * Real.sin t)
      (2 - 2 * Real.cos t - t * Real.sin t) t := by
    intro t
    have h1 : HasDerivAt (fun t : ℝ => t * (2 + Real.cos t) - 3 * Real.sin t)
        (1 * (2 + Real.cos t) + t * (0 + -Real.sin t) - 3 * Real.cos t) t :=
      ((hasDerivAt_id t).mul ((hasDerivAt_const t (2:ℝ)).add (Real.hasDerivAt_cos t))).sub
        ((Real.hasDerivAt_sin t).const_mul 3)
    convert h1 using 1 <;> ring
  have h0 : (fun t : ℝ => t * (2 + Real.cos t) - 3 * Real.sin t) 0 ≤
      (fun t : ℝ => t * (2 + Real.cos t) - 3 * Real.sin t) x := by
    apply le_of_hasDerivAt_nonneg key _ hx
    intro t ht
    exact two_sub_two_cos_sub_mul_sin_nonneg ht.1 (le_trans ht.2 hxpi)
  simp only [Real.sin_zero, Real.cos_zero, zero_mul, mul_zero] at h0
  nlinarith [h0]

/-- The Kepler function `g(E) = E − e sin E` whose root at level `M` is the
eccentric anomaly. -/
noncomputable def kg (e E : ℝ) : ℝ := E - e * Real.sin E

/-- One Newton-Raphson update of the solver loop. -/
noncomputable def kN (e M E : ℝ) : ℝ :=
  E - (E - e * Real.sin E - M) / (1 - e * Real.cos E)

/-- The Newton denominator `1 − e cos E` is bounded below by `1 − e`. -/
theorem kfp_ge (e E : ℝ) (he0 : 0 ≤ e) : 1 - e ≤ 1 - e * Real.cos E := by
  nlinarith [Real.cos_le_one E]

/-- The Newton denominator is positive for `e < 1`. -/
theorem kfp_pos (e E : ℝ) (he0 : 0 ≤ e) (he1 : e < 1) : 0 < 1 - e * Real.cos E := by
  nlinarith [Real.cos_le_one E]

/-- Sine is 1-Lipschitz. -/
theorem abs_sin_sub_sin_le (x y : ℝ) : |Real.sin y - Real.sin x| ≤ |y - x| := by
  rw [Real.sin_sub_sin]
  rw [abs_mul, abs_mul]
  have h1 : |Real.sin ((y - x) / 2)| ≤ |(y - x) / 2| := Real.abs_sin_le_abs
  have h2 : |Real.cos ((y + x) / 2)| ≤ 1 := Real.abs_cos_le_one _
  have h3 : |(2:ℝ)| = 2 := by norm_num
  rw [h3]
  calc 2 * |Real.sin ((y - x) / 2)| * |Real.cos ((y + x) / 2)|
      ≤ 2 * |(y - x) / 2| * 1 := by
        apply mul_le_mul _ h2 (abs_nonneg _) (by positivity)
        exact mul_le_mul_of_nonneg_left h1 (by norm_num)
    _ = |y - x| := by
        rw [mul_one, abs_div, h3]
        ring

/-- The Kepler function grows at least linearly with slope `1 − e`. -/
theorem kg_gap (e x y : ℝ) (he0 : 0 ≤ e) (hxy : x ≤ y) :
    (1 - e) * (y - x) ≤ kg e y - kg e x := by
  have h := abs_sin_sub_sin_le x y
  have h2 : Real.sin y - Real.sin x ≤ |y - x| := le_trans (le_abs_self _) h
  have h3 : |y - x| = y - x := abs_of_nonneg (by linarith)
  rw [h3] at h2
  simp only [kg]
  nlinarith

/-- Strict monotonicity of the Kepler function for `e < 1`. -/
theorem kg_strict (e x y : ℝ) (he0 : 0 ≤ e) (he1 : e < 1) (hxy : x < y) :
    kg e x < kg e y := by
  have := kg_gap e x y he0 hxy.le
  nlinarith

/-- Order reflection through the Kepler function. -/
theorem kg_le_rev (e x y : ℝ) (he0 : 0 ≤ e) (he1 : e < 1)
    (h : kg e x ≤ kg e y) : x ≤ y := by
  by_contra hlt
  push_neg at hlt
  exact absurd h (not_le.mpr (kg_strict e y x he0 he1 hlt))

/-- Existence of the eccentric anomaly: the Kepler function attains every
mean anomaly in `[0, π]` on `[0, π]`. -/
theorem kg_root_exists (e M : ℝ) (he0 : 0 ≤ e) (hM0 : 0 ≤ M) (hMpi : M ≤ Real.pi) :
    ∃ Es, 0 ≤ Es ∧ Es ≤ Real.pi ∧ kg e Es = M := by
  have hc : ContinuousOn (kg e) (Set.Icc 0 Real.pi) := by
    apply Continuous.continuousOn
    have hkg : kg e = fun E => E - e * Real.sin E := rfl
    rw [hkg]
    exact continuous_id.sub (continuous_const.mul Real.continuous_sin)
  have h0 : kg e 0 = 0 := by simp [kg]
  have hpi : kg e Real.pi = Real.pi := by simp [kg]
  have hM : M ∈ Set.Icc (kg e 0) (kg e Real.pi) := by
    rw [h0, hpi]
    exact ⟨hM0, hMpi⟩
  have := intermediate_value_Icc Real.pi_pos.le hc hM
  obtain ⟨Es, hEs, hval⟩ := this
  exact ⟨Es, hEs.1, hEs.2, hval⟩

/-- Weighted chord inequality behind the `2/3` contraction of the Newton
step (a two-point form of the Cusa-Huygens inequality). -/
theorem three_sin_sub_le (a b : ℝ) (ha : 0 ≤ a) (hab : a ≤ b) (hb : b ≤ Real.pi) :
    3 * (Real.sin b - Real.sin a) ≤ 2 * (b - a) + (b - a) * Real.cos b := by
  have hb0 : 0 ≤ b := le_trans ha hab
  have hconc : ConcaveOn ℝ (Set.Icc 0 Real.pi)
      (fun s : ℝ => 3 * Real.sin s - (2 + Real.cos b) * s
        + (2*b + b*Real.cos b - 3*Real.sin b)) := by
    constructor
    · exact (convex_Icc (0:ℝ) Real.pi)
    · intro x hx y hy p q hp hq hpq
      have hs := (strictConcaveOn_sin_Icc.concaveOn).2 hx hy hp hq hpq
      simp only [smul_eq_mul] at hs ⊢
      have hq1 : q = 1 - p := by linarith
      subst hq1
      nlinarith [hs]
  have hmin := hconc.ge_on_segment (x := 0) (y := b) (z := a)
    ⟨le_refl 0, Real.pi_pos.le⟩ ⟨hb0, hb⟩
    (by rw [segment_eq_Icc hb0]; exact ⟨ha, hab⟩)
  have hφ0 : 0 ≤ 3 * Real.sin 0 - (2 + Real.cos b) * 0
      + (2*b + b*Real.cos b - 3*Real.sin b) := by
    rw [Real.sin_zero]
    have := cusa_huygens hb0 hb
    nlinarith
  have hφb : 3 * Real.sin b - (2 + Real.cos b) * b
      + (2*b + b*Real.cos b - 3*Real.sin b) = 0 := by ring
  have hmin2 : 0 ≤ 3 * Real.sin a - (2 + Real.cos b) * a
      + (2*b + b*Real.cos b - 3*Real.sin b) := by
    have h1 := le_min hφ0 (le_of_eq hφb.symm)
    exact le_trans h1 hmin
  nlinarith [hmin2]

/-- The seed `M + e sin M` of the solver stays in `[0, π]` for mean
anomalies in `[0, π]`. -/
theorem seed_le_pi (e M : ℝ) (he0 : 0 ≤ e) (he1 : e ≤ 1) (hM0 : 0 ≤ M)
    (hMpi : M ≤ Real.pi) : M + e * Real.sin M ≤ Real.pi := by
  have hs : 0 ≤ Real.sin M := Real.sin_nonneg_of_nonneg_of_le_pi hM0 hMpi
  have h1 : Real.sin M = Real.sin (Real.pi - M) := (Real.sin_pi_sub M).symm
  have h2 : Real.sin (Real.pi - M) ≤ Real.pi - M := Real.sin_le (by linarith)
  nlinarith

/-- The Kepler function is 2-Lipschitz for `e ≤ 1`. -/
theorem kg_lip2 (e x y : ℝ) (he0 : 0 ≤ e) (he1 : e ≤ 1) :
    |kg e y - kg e x| ≤ 2 * |y - x| := by
  have h := abs_sin_sub_sin_le x y
  have h2 : |kg e y - kg e x| ≤ |y - x| + e * |Real.sin y - Real.sin x| := by
    simp only [kg]
    have h3 : y - e * Real.sin y - (x - e * Real.sin x)
        = (y - x) - e * (Real.sin y - Real.sin x) := by ring
    rw [h3]
    calc |(y - x) - e * (Real.sin y - Real.sin x)|
        ≤ |y - x| + |e * (Real.sin y - Real.sin x)| := abs_sub _ _
      _ = |y - x| + e * |Real.sin y - Real.sin x| := by
          rw [abs_mul, abs_of_nonneg he0]
  have h4 : e * |Real.sin y - Real.sin x| ≤ e * |y - x| :=
    mul_le_mul_of_nonneg_left h he0
  nlinarith [abs_nonneg (y - x)]

/-- Unfolding lemma for one solver pass. -/
theorem keplerIter_succ (e M tol : ℝ) (n : ℕ) (E : ℝ) :
    keplerIter e M tol (n+1) E =
      if |(E - e * Real.sin E - M) / (1 - e * Real.cos E)| < tol
      then E - (E - e * Real.sin E - M) / (1 - e * Real.cos E)
      else keplerIter e M tol n (E - (E - e * Real.sin E - M) / (1 - e * Real.cos E)) :=
  rfl

/-- The post-update value equals the Newton map. -/
theorem keplerIter_step_eq (e M E : ℝ) :
    E - (E - e * Real.sin E - M) / (1 - e * Real.cos E) = kN e M E := rfl

/-- When the early-exit test fires, the returned value has residual at most
`4 · tolerance` (for `e ≤ 1`). -/
theorem break_residual (e M tol E : ℝ) (he0 : 0 ≤ e) (he1 : e ≤ 1) (he1' : e < 1)
    (hbrk : |(E - e * Real.sin E - M) / (1 - e * Real.cos E)| < tol) :
    |kg e (kN e M E) - M| ≤ 4 * tol := by
  have hfp : 0 < 1 - e * Real.cos E := kfp_pos e E he0 he1'
  have hfp2 : 1 - e * Real.cos E ≤ 2 := by
    nlinarith [Real.neg_one_le_cos E]
  set dE := (E - e * Real.sin E - M) / (1 - e * Real.cos E) with hdE
  have hF : kg e E - M = dE * (1 - e * Real.cos E) := by
    rw [hdE, div_mul_cancel₀ _ (ne_of_gt hfp)]
    simp [kg]
  have hFabs : |kg e E - M| ≤ 2 * tol := by
    rw [hF, abs_mul]
    have h1 : |1 - e * Real.cos E| = 1 - e * Real.cos E := abs_of_pos hfp
    rw [h1]
    nlinarith [abs_nonneg dE, hbrk]
  have hlip : |kg e (kN e M E) - kg e E| ≤ 2 * |dE| := by
    have := kg_lip2 e E (kN e M E) he0 he1
    have hdiff : kN e M E - E = -dE := by
      rw [← keplerIter_step_eq]
      ring
    rw [hdiff] at this
    simpa using this
  have htri : |kg e (kN e M E) - M| ≤ |kg e (kN e M E) - kg e E| + |kg e E - M| := by
    calc |kg e (kN e M E) - M|
        = |(kg e (kN e M E) - kg e E) + (kg e E - M)| := by ring_nf
      _ ≤ _ := abs_add _ _
  nlinarith [abs_nonneg dE, hbrk]

/-- Monotone phase, lower preservation: the Newton step from a point at or
right of the root in `[0, π]` stays at or right of the root. -/
theorem step_ge_root (e M Es E : ℝ) (he0 : 0 ≤ e) (he1 : e < 1)
    (hroot : kg e Es = M) (hEs0 : 0 ≤ Es) (hEsE : Es ≤ E) (hEpi : E ≤ Real.pi) :
    Es ≤ kN e M E := by
  have hfp : 0 < 1 - e * Real.cos E := kfp_pos e E he0 he1
  have hT1 := mul_cos_le_sin_sub_sin hEs0 hEsE hEpi
  have hF : kg e E - M ≤ (E - Es) * (1 - e * Real.cos E) := by
    rw [← hroot]
    simp only [kg]
    nlinarith [mul_le_mul_of_nonneg_left hT1 he0]
  rw [kN]
  have h2 : (E - e * Real.sin E - M) / (1 - e * Real.cos E) ≤ E - Es := by
    rw [div_le_iff hfp]
    have h3 : E - e * Real.sin E - M = kg e E - M := by simp [kg]
    rw [h3]
    exact hF
  linarith

/-- Monotone phase, upper preservation: the Newton step from a point at or
right of the root does not increase. -/
theorem step_le_self (e M Es E : ℝ) (he0 : 0 ≤ e) (he1 : e < 1)
    (hroot : kg e Es = M) (hEsE : Es ≤ E) : kN e M E ≤ E := by
  have hfp : 0 < 1 - e * Real.cos E := kfp_pos e E he0 he1
  have hF : 0 ≤ kg e E - M := by
    rw [← hroot]
    have := kg_gap e Es E he0 hEsE
    nlinarith
  rw [kN]
  have h3 : E - e * Real.sin E - M = kg e E - M := by simp [kg]
  have h2 : 0 ≤ (E - e * Real.sin E - M) / (1 - e * Real.cos E) := by
    rw [h3]
    positivity
  linarith

/-- Monotone phase contraction: the Newton step at least cuts the distance
to the root by a factor `2/3`. -/
theorem step_ratio (e M Es E : ℝ) (he0 : 0 ≤ e) (he1 : e ≤ 1) (he1' : e < 1)
    (hroot : kg e Es = M) (hEs0 : 0 ≤ Es) (hEsE : Es ≤ E) (hEpi : E ≤ Real.pi) :
    kN e M E - Es ≤ (2/3) * (E - Es) := by
  have hfp : 0 < 1 - e * Real.cos E := kfp_pos e E he0 he1'
  have hT2 := three_sin_sub_le Es E hEs0 hEsE hEpi
  have hkey : (E - Es) * (1 - e * Real.cos E) ≤ 3 * (kg e E - M) := by
    rw [← hroot]
    simp only [kg]
    rcases le_or_lt 0 ((E - Es) * Real.cos E - 3 * (Real.sin E - Real.sin Es)) with hB | hB
    · nlinarith
    · nlinarith
  rw [kN]
  have h3 : E - e * Real.sin E - M = kg e E - M := by simp [kg]
  rw [h3]
  have h2 : (1/3) * (E - Es) ≤ (kg e E - M) / (1 - e * Real.cos E) := by
    rw [le_div_iff hfp]
    nlinarith
  linarith

/-- One Newton step from the left of the root lands at or right of the
root, as long as it does not overshoot past `2π − E`. -/
theorem newton_from_left (e M E : ℝ) (he0 : 0 ≤ e) (he1 : e < 1)
    (hE0 : 0 ≤ E) (hF : kg e E - M ≤ 0) (hover : kN e M E ≤ 2 * Real.pi - E) :
    0 ≤ kg e (kN e M E) - M := by
  have hfp : 0 < 1 - e * Real.cos E := kfp_pos e E he0 he1
  have hfp' : (1 - e * Real.cos E) ≠ 0 := ne_of_gt hfp
  have hEK : E ≤ kN e M E := by
    rw [kN]
    have h3 : E - e * Real.sin E - M = kg e E - M := by simp [kg]
    have h2 : (E - e * Real.sin E - M) / (1 - e * Real.cos E) ≤ 0 := by
      rw [h3]
      exact div_nonpos_of_nonpos_of_nonneg hF hfp.le
    linarith
  have hkey : kg e (kN e M E) - M
      = e * ((kN e M E - E) * Real.cos E - (Real.sin (kN e M E) - Real.sin E)) := by
    simp only [kg, kN]
    field_simp
    ring
  rw [hkey]
  apply mul_nonneg he0
  have hT3 := sin_sub_sin_le_mul_cos hE0 hEK hover
  linarith

/-! ### Polynomial certificates for the overshoot analysis -/

/-- Endpoint certificate (eccentricity `99/100`) for the small-`M`
overshoot bound. -/
theorem w1gA (M : ℝ) (hM0 : 0 ≤ M) (hM1 : M ≤ 27/100) :
    (9801/10000)*M ≤ (39415/10000 - 2*M) * (1/100 + (18141/10000)*M^2) := by
  nlinarith [sq_nonneg (M - 74/1000), mul_nonneg hM0 (sub_nonneg.mpr hM1),
    mul_nonneg (mul_nonneg hM0 hM0) (sub_nonneg.mpr hM1),
    mul_nonneg hM0 (sq_nonneg (M - 74/1000))]

/-- Endpoint certificate (eccentricity `9/10`) for the small-`M`
overshoot bound. -/
theorem w1gB (M : ℝ) (hM0 : 0 ≤ M) (hM1 : M ≤ 27/100) :
    (81/100)*M ≤ (39415/10000 - 2*M) * (1/10 + (1491/1000)*M^2) := by
  nlinarith [sq_nonneg (M - 1/10), mul_nonneg hM0 (sub_nonneg.mpr hM1),
    mul_nonneg (mul_nonneg hM0 hM0) (sub_nonneg.mpr hM1)]

/-- Tangent-line lower bound for the cubic `e ↦ e·K₂(e)` appearing in the
small-`M` overshoot certificate. -/
theorem w1gL (e : ℝ) (he0 : 9/10 ≤ e) (he1 : e ≤ 99/100) :
    (359/100)*e - 174/100 ≤ e*((1+(98/100)*e)^2/2 - 486/10000) := by
  nlinarith [sq_nonneg (e - 945/1000), mul_nonneg (sub_nonneg.mpr he0) (sub_nonneg.mpr he1),
    mul_nonneg (mul_nonneg (sub_nonneg.mpr he0) (sub_nonneg.mpr he0)) (sub_nonneg.mpr he1)]

set_option maxHeartbeats 1000000 in
/-- Polynomial certificate behind the small-`M` overshoot bound
`E₁ ≤ π + 4/5`. -/
theorem w1g (e M : ℝ) (he0 : 0 ≤ e) (he1 : e ≤ 99/100)
    (hM0 : 0 ≤ M) (hM1 : M ≤ 27/100) :
    e^2*M ≤ (39415/10000 - 2*M) * ((1-e) + e*((1+(98/100)*e)^2/2 - 486/10000)*M^2) := by
  have hC0 : (0:ℝ) ≤ 39415/10000 - 2*M := by linarith
  have hK : (0:ℝ) ≤ (1+(98/100)*e)^2/2 - 486/10000 := by nlinarith [sq_nonneg e]
  have hDq : (0:ℝ) ≤ e*((1+(98/100)*e)^2/2 - 486/10000)*M^2 :=
    mul_nonneg (mul_nonneg he0 hK) (sq_nonneg M)
  rcases le_or_lt e (9/10) with he9 | he9
  · have key : e^2*M ≤ (39415/10000 - 2*M) * (1-e) := by
      nlinarith [mul_nonneg (sub_nonneg.mpr he9) hM0,
        mul_nonneg (mul_nonneg he0 he0) (sub_nonneg.mpr hM1),
        mul_nonneg (mul_nonneg he0 (sub_nonneg.mpr he9)) hM0]
    calc e^2*M ≤ (39415/10000 - 2*M) * (1-e) := key
      _ ≤ (39415/10000 - 2*M) * ((1-e) + e*((1+(98/100)*e)^2/2 - 486/10000)*M^2) := by
          apply mul_le_mul_of_nonneg_left (by linarith) hC0
  · have hL := w1gL e he9.le he1
    have hDlb : (1-e) + ((359/100)*e - 174/100)*M^2 ≤
        (1-e) + e*((1+(98/100)*e)^2/2 - 486/10000)*M^2 := by
      have := mul_le_mul_of_nonneg_right hL (sq_nonneg M)
      linarith
    have hLpos : (0:ℝ) ≤ (359/100)*e - 174/100 := by linarith
    have hDlb0 : (0:ℝ) ≤ (1-e) + ((359/100)*e - 174/100)*M^2 := by
      have := mul_nonneg hLpos (sq_nonneg M)
      linarith
    have hA := w1gA M hM0 hM1
    have hB := w1gB M hM0 hM1
    have hmain : ((189/100)*e - 891/1000)*M ≤
        (39415/10000 - 2*M) * ((1-e) + ((359/100)*e - 174/100)*M^2) := by
      nlinarith [mul_nonneg (sub_nonneg.mpr he9.le) (sub_nonneg.mpr hA),
        mul_nonneg (sub_nonneg.mpr he1) (sub_nonneg.mpr hB)]
    have hsq : e^2*M ≤ ((189/100)*e - 891/1000)*M := by
      have h1 : e^2 ≤ (189/100)*e - 891/1000 := by
        nlinarith [mul_nonneg (sub_nonneg.mpr he9.le) (sub_nonneg.mpr he1)]
      exact mul_le_mul_of_nonneg_right h1 hM0
    calc e^2*M ≤ ((189/100)*e - 891/1000)*M := hsq
      _ ≤ (39415/10000 - 2*M) * ((1-e) + ((359/100)*e - 174/100)*M^2) := hmain
      _ ≤ (39415/10000 - 2*M) * ((1-e) + e*((1+(98/100)*e)^2/2 - 486/10000)*M^2) := by
          apply mul_le_mul_of_nonneg_left hDlb hC0

/-- Endpoint certificate (eccentricity `99/100`) for the mid-`M`
no-overshoot bound. -/
theorem w2gA (s : ℝ) (hs0 : 2667/10000 ≤ s) (hs1 : s ≤ 7835/10000) :
    (983/1000)*s ≤ (31415/10000 - (1119/519)*s) * (1/100 + (15249/10000)*s^2) := by
  nlinarith [sq_nonneg (s - 2667/10000), mul_nonneg (sub_nonneg.mpr hs0) (sub_nonneg.mpr hs1),
    mul_nonneg (mul_nonneg (sub_nonneg.mpr hs0) (sub_nonneg.mpr hs0)) (sub_nonneg.mpr hs1),
    sq_nonneg (s - 1/2)]

/-- Endpoint certificate (eccentricity `7/10`) for the mid-`M`
no-overshoot bound. -/
theorem w2gB (s : ℝ) (hs0 : 2667/10000 ≤ s) (hs1 : s ≤ 7835/10000) :
    (49/100)*s ≤ (31415/10000 - (1119/519)*s) * (3/10 + (507/1000)*s^2) := by
  nlinarith [sq_nonneg (s - 2667/10000), mul_nonneg (sub_nonneg.mpr hs0) (sub_nonneg.mpr hs1),
    mul_nonneg (mul_nonneg (sub_nonneg.mpr hs0) (sub_nonneg.mpr hs0)) (sub_nonneg.mpr hs1),
    sq_nonneg (s - 1/2)]

set_option maxHeartbeats 1000000 in
/-- Polynomial certificate behind the mid-`M` no-overshoot bound
`E₁ ≤ π` for mean anomalies in `[27/100, 9/10]`. -/
theorem w2g (e s : ℝ) (he0 : 0 ≤ e) (he1 : e ≤ 99/100)
    (hs0 : 2667/10000 ≤ s) (hs1 : s ≤ 7835/10000) :
    e^2*s ≤ (31415/10000 - (600/519)*s - e*s) * ((1-e) + (39/100)*e*(1+e)^2*s^2) := by
  have hsp : (0:ℝ) < s := by linarith
  have hC0 : (0:ℝ) ≤ 31415/10000 - (600/519)*s - e*s := by nlinarith
  have hDq : (0:ℝ) ≤ (39/100)*e*(1+e)^2*s^2 :=
    mul_nonneg (mul_nonneg (by linarith) (sq_nonneg _)) (sq_nonneg _)
  rcases le_or_lt e (7/10) with he7 | he7
  · have key : e^2*s ≤ (31415/10000 - (600/519)*s - e*s) * (1-e) := by
      nlinarith [mul_nonneg (sub_nonneg.mpr he7) (sub_nonneg.mpr hs0),
        mul_nonneg (sub_nonneg.mpr he7) (sub_nonneg.mpr hs1),
        mul_nonneg he0 (sub_nonneg.mpr hs0),
        mul_nonneg (mul_nonneg he0 he0) (sub_nonneg.mpr hs0)]
    calc e^2*s ≤ (31415/10000 - (600/519)*s - e*s) * (1-e) := key
      _ ≤ (31415/10000 - (600/519)*s - e*s) * ((1-e) + (39/100)*e*(1+e)^2*s^2) := by
          apply mul_le_mul_of_nonneg_left (by linarith) hC0
  · have hC2pos : (0:ℝ) ≤ 31415/10000 - (1119/519)*s := by nlinarith
    have hC2le : 31415/10000 - (1119/519)*s ≤ 31415/10000 - (600/519)*s - e*s := by
      nlinarith [mul_nonneg (sub_nonneg.mpr he1) hsp.le]
    have hcube : 4 - 9*(1-e) ≤ e*(1+e)^2 := by
      nlinarith [mul_nonneg (sub_nonneg.mpr he1)
        (sub_nonneg.mpr (show (0:ℝ) ≤ 5 - 3*e - e^2 by nlinarith))]
    have hDlb0 : (0:ℝ) ≤ (1-e) + ((156/100) - (351/100)*(1-e))*s^2 := by
      nlinarith [sq_nonneg s]
    have hDlb : (1-e) + ((156/100) - (351/100)*(1-e))*s^2 ≤
        (1-e) + (39/100)*e*(1+e)^2*s^2 := by
      nlinarith [mul_nonneg (sub_nonneg.mpr hcube) (sq_nonneg s), sq_nonneg s]
    have hA := w2gA s hs0 hs1
    have hB := w2gB s hs0 hs1
    have hmain : ((17/10)*e - 7/10)*s ≤
        (31415/10000 - (1119/519)*s) * ((1-e) + ((156/100) - (351/100)*(1-e))*s^2) := by
      nlinarith [mul_nonneg (sub_nonneg.mpr he7.le) (sub_nonneg.mpr hA),
        mul_nonneg (sub_nonneg.mpr he1) (sub_nonneg.mpr hB)]
    have hsq : e^2*s ≤ ((17/10)*e - 7/10)*s := by
      nlinarith [mul_nonneg (sub_nonneg.mpr he7.le) (sub_nonneg.mpr he1)]
    calc e^2*s ≤ ((17/10)*e - 7/10)*s := hsq
      _ ≤ (31415/10000 - (1119/519)*s) * ((1-e) + ((156/100) - (351/100)*(1-e))*s^2) :=
          hmain
      _ ≤ (31415/10000 - (600/519)*s - e*s) * ((1-e) + (39/100)*e*(1+e)^2*s^2) := by
          apply mul_le_mul hC2le hDlb hDlb0 hC0

/-- Polynomial certificate behind the high-`M` no-overshoot bound
`E₁ ≤ π` for mean anomalies in `[9/10, π/2]`. -/
theorem w2b (e s : ℝ) (he0 : 0 ≤ e) (he1 : e ≤ 99/100)
    (hs0 : 7785/10000 ≤ s) :
    e*(1-s) ≤ (15707/10000 - e*s) * (1 - (6224/10000)*e) := by
  nlinarith [mul_nonneg (mul_nonneg he0 he0) (sub_nonneg.mpr hs0), sq_nonneg e,
    mul_nonneg he0 (sub_nonneg.mpr hs0)]

/-- Polynomial certificate behind the second-step recovery bound
`Es ≤ kN E₁` after a small-`M` overshoot. -/
theorem w3 (u : ℝ) (hu0 : 0 ≤ u) (hu1 : u ≤ 4/5) :
    u + 93274/100000 ≤ (31415/10000 + u - 6/5) * (1 - u^2/2) := by
  nlinarith [mul_nonneg hu0 (sub_nonneg.mpr hu1), sq_nonneg u,
    mul_nonneg (mul_nonneg hu0 hu0) (sub_nonneg.mpr hu1)]

/-! ### Numeric sine and cosine bounds from the Taylor estimates -/

/-- `sin (27/100) ≥ 2667/10000`. -/
theorem sin_27_ge : (2667/10000 : ℝ) ≤ Real.sin (27/100) := by
  have h := sin_ge_cubic (27/100) (by norm_num)
  nlinarith

/-- `sin (9/10) ≤ 7835/10000`. -/
theorem sin_9_le : Real.sin (9/10) ≤ 7835/10000 := by
  have h := sin_le_quintic (9/10) (by norm_num)
  nlinarith

/-- `sin (9/10) ≥ 7785/10000`. -/
theorem sin_9_ge : (7785/10000 : ℝ) ≤ Real.sin (9/10) := by
  have h := sin_ge_cubic (9/10) (by norm_num)
  nlinarith

/-- `sin (6/5) ≤ 93274/100000`. -/
theorem sin_65_le : Real.sin (6/5) ≤ 93274/100000 := by
  have h := sin_le_quintic (6/5) (by norm_num)
  nlinarith

/-- `cos (9/10) ≤ 6224/10000`. -/
theorem cos_9_le : Real.cos (9/10) ≤ 6224/10000 := by
  have h := cos_le_quartic (9/10) (by norm_num)
  nlinarith

/-! ### Small analytic helpers -/

/-- The quartic Taylor polynomial of `1 - cos` is monotone on `[0, 17/10]`. -/
theorem quartic_mono (a b : ℝ) (ha : 0 ≤ a) (hab : a ≤ b) (hb : b ≤ 17/10) :
    a^2/2 - a^4/24 ≤ b^2/2 - b^4/24 := by
  have hb0 : 0 ≤ b := le_trans ha hab
  have h1 : a^2 ≤ b^2 := by nlinarith
  have h2 : a^2 + b^2 ≤ 12 := by nlinarith
  nlinarith [mul_nonneg (sub_nonneg.mpr h1) (sub_nonneg.mpr h2)]

/-- Quartic lower bound on the Newton denominator. -/
theorem denom_ge_quartic (e E : ℝ) (he0 : 0 ≤ e) (hE0 : 0 ≤ E) :
    (1 - e) + e*(E^2/2 - E^4/24) ≤ 1 - e * Real.cos E := by
  have h := cos_le_quartic E hE0
  nlinarith [mul_le_mul_of_nonneg_left h he0]

/-- Sine is antitone after `π/2`: for `π/2 ≤ x ≤ y ≤ π`,
`sin y ≤ sin x`. -/
theorem sin_anti_late (x y : ℝ) (hx : Real.pi/2 ≤ x) (hxy : x ≤ y)
    (hy : y ≤ Real.pi) : Real.sin y ≤ Real.sin x := by
  have h1 : Real.sin y = Real.sin (Real.pi - y) := (Real.sin_pi_sub y).symm
  have h2 : Real.sin x = Real.sin (Real.pi - x) := (Real.sin_pi_sub x).symm
  rw [h1, h2]
  apply Real.sin_le_sin_of_le_of_le_pi_div_two (by linarith) (by linarith) (by linarith)

/-- On `[0, 2π)` the JS normalisation is the identity. -/
theorem normalizeM_id (M : ℝ) (hM0 : 0 ≤ M) (hM1 : M < 2*Real.pi) :
    normalizeM M = M := by
  rw [normalizeM_eq_floor]
  have h2pi : (0:ℝ) < 2*Real.pi := by positivity
  have hfl : ⌊M / (2*Real.pi)⌋ = 0 := by
    rw [Int.floor_eq_zero_iff]
    constructor
    · exact div_nonneg hM0 h2pi.le
    · rw [div_lt_one h2pi]
      exact hM1
  rw [hfl]
  simp

/-- Numeric tail bound: with at least 48 iterations of the `2/3`
contraction, the worst-case residual is below `10⁻⁶`. -/
theorem kepler_tail_bound (x : ℝ) (n : ℕ) (hx0 : 0 ≤ x) (hxpi : x ≤ Real.pi)
    (hn : 48 ≤ n) : max (4*(1e-8 : ℝ)) (2*x*(2/3)^n) < 1e-6 := by
  apply max_lt
  · norm_num
  · have h1 : ((2:ℝ)/3)^n ≤ (2/3)^(48:ℕ) := by
      apply pow_le_pow_of_le_one (by norm_num) (by norm_num) hn
    have hpow0 : (0:ℝ) ≤ (2/3)^n := by positivity
    have h2 : 2*x*(2/3)^n ≤ 2*Real.pi*(2/3)^(48:ℕ) := by
      apply mul_le_mul (by linarith) h1 hpow0 (by positivity)
    have hpi : Real.pi < 3.1416 := by
      have := Real.pi_lt_3141593
      linarith
    have h3 : 2*Real.pi*(2/3)^(48:ℕ) < 2*(3.1416:ℝ)*(2/3)^(48:ℕ) := by
      have hp : (0:ℝ) < (2/3)^(48:ℕ) := by positivity
      nlinarith
    have h4 : 2*(3.1416:ℝ)*(2/3)^(48:ℕ) < 1e-6 := by norm_num
    linarith
/-! ### Overshoot control for the first Newton step -/

set_option maxHeartbeats 1000000 in
/-- Mid-range mean anomalies `M ∈ [27/100, 9/10]`: the first Newton step
from the seed does not overshoot past `π`. -/
theorem overshoot_none_mid (e M : ℝ) (he0 : 0 ≤ e) (he1 : e ≤ 99/100)
    (hM0 : 27/100 ≤ M) (hM1 : M ≤ 9/10) :
    kN e M (M + e * Real.sin M) ≤ Real.pi := by
  have hpi : (3.141592:ℝ) < Real.pi := Real.pi_gt_3141592
  have hpi2 : Real.pi < 3.141593 := Real.pi_lt_3141593
  have hM0' : (0:ℝ) ≤ M := by linarith
  have hs_l : (2667/10000:ℝ) ≤ Real.sin M := by
    have h2 : Real.sin (27/100) ≤ Real.sin M :=
      Real.sin_le_sin_of_le_of_le_pi_div_two (by linarith) (by linarith) hM0
    linarith [sin_27_ge]
  have hs_u : Real.sin M ≤ 7835/10000 := by
    have h2 : Real.sin M ≤ Real.sin (9/10) :=
      Real.sin_le_sin_of_le_of_le_pi_div_two (by linarith) (by linarith) hM1
    linarith [sin_9_le]
  have hs0 : (0:ℝ) ≤ Real.sin M := by linarith
  have hsM : Real.sin M ≤ M := Real.sin_le hM0'
  have hM600 : M ≤ (600/519) * Real.sin M := by
    have hM2 : M^2 ≤ 81/100 := by nlinarith
    have hM3 : M^2 * M ≤ (81/100) * M := mul_le_mul_of_nonneg_right hM2 hM0'
    have hcub := sin_ge_cubic M hM0'
    nlinarith
  have hes : (0:ℝ) ≤ e * Real.sin M := mul_nonneg he0 hs0
  have hE0_0 : (0:ℝ) ≤ M + e * Real.sin M := by linarith
  have hE0pi : M + e * Real.sin M ≤ Real.pi :=
    seed_le_pi e M he0 (by linarith) hM0' (by linarith)
  have hesu : e * Real.sin M ≤ (99/100) * (7835/10000) :=
    mul_le_mul he1 hs_u hs0 (by norm_num)
  have hE0_17 : M + e * Real.sin M ≤ 17/10 := by linarith
  -- denominator lower bound
  have hq1 := denom_ge_quartic e (M + e * Real.sin M) he0 hE0_0
  have hq2 : Real.sin M * (1+e) ≤ M + e * Real.sin M := by nlinarith
  have hLnn : (0:ℝ) ≤ Real.sin M * (1+e) := mul_nonneg hs0 (by linarith)
  have hq3 := quartic_mono (Real.sin M * (1+e)) (M + e * Real.sin M) hLnn hq2 hE0_17
  have hLs : Real.sin M * (1+e) ≤ 156/100 := by
    have := mul_le_mul hs_u (show 1+e ≤ 199/100 by linarith) (by linarith) (by norm_num)
    linarith
  have hLs2 : (Real.sin M * (1+e))^2 ≤ 264/100 := by nlinarith
  have hq4 : (39/100)*(1+e)^2*(Real.sin M)^2 ≤
      (Real.sin M * (1+e))^2/2 - (Real.sin M * (1+e))^4/24 := by
    nlinarith [mul_nonneg (sq_nonneg (Real.sin M * (1+e))) (sub_nonneg.mpr hLs2)]
  have hq5 : (1-e) + (39/100)*e*(1+e)^2*(Real.sin M)^2 ≤
      1 - e * Real.cos (M + e * Real.sin M) := by
    have hmul := mul_le_mul_of_nonneg_left (le_trans hq4 hq3) he0
    nlinarith
  -- numerator upper bound
  have hT3 := sin_sub_sin_le_mul_cos hM0' (show M ≤ M + e * Real.sin M by linarith)
    (show M + e * Real.sin M ≤ 2 * Real.pi - M by linarith)
  have hcos1 : Real.cos M ≤ 1 := Real.cos_le_one M
  have hnum : e * (Real.sin (M + e * Real.sin M) - Real.sin M) ≤ e^2 * Real.sin M := by
    have h1 : Real.sin (M + e * Real.sin M) - Real.sin M ≤ e * Real.sin M * Real.cos M := by
      have := hT3
      nlinarith
    have h2 : e * Real.sin M * Real.cos M ≤ e * Real.sin M := by
      nlinarith [mul_le_mul_of_nonneg_left hcos1 hes]
    have h3 := mul_le_mul_of_nonneg_left (le_trans h1 h2) he0
    nlinarith
  -- certificate comparison
  have hClb : 31415/10000 - (600/519) * Real.sin M - e * Real.sin M ≤
      Real.pi - (M + e * Real.sin M) := by linarith
  have hC0 : (0:ℝ) ≤ 31415/10000 - (600/519) * Real.sin M - e * Real.sin M := by
    nlinarith
  have hD0 : (0:ℝ) ≤ (1-e) + (39/100)*e*(1+e)^2*(Real.sin M)^2 := by
    have := mul_nonneg (mul_nonneg (mul_nonneg (by norm_num : (0:ℝ) ≤ 39/100) he0)
      (sq_nonneg (1+e))) (sq_nonneg (Real.sin M))
    nlinarith
  have hW := w2g e (Real.sin M) he0 he1 hs_l hs_u
  have hprod : (31415/10000 - (600/519) * Real.sin M - e * Real.sin M) *
      ((1-e) + (39/100)*e*(1+e)^2*(Real.sin M)^2) ≤
      (Real.pi - (M + e * Real.sin M)) * (1 - e * Real.cos (M + e * Real.sin M)) :=
    mul_le_mul hClb hq5 hD0 (by linarith)
  have hkey : e * (Real.sin (M + e * Real.sin M) - Real.sin M) ≤
      (Real.pi - (M + e * Real.sin M)) * (1 - e * Real.cos (M + e * Real.sin M)) := by
    calc e * (Real.sin (M + e * Real.sin M) - Real.sin M) ≤ e^2 * Real.sin M := hnum
      _ ≤ _ := le_trans hW hprod
  -- conclude
  have hfp : 0 < 1 - e * Real.cos (M + e * Real.sin M) :=
    kfp_pos e (M + e * Real.sin M) he0 (by linarith)
  rw [kN]
  have harg : M + e * Real.sin M - e * Real.sin (M + e * Real.sin M) - M
      = -(e * (Real.sin (M + e * Real.sin M) - Real.sin M)) := by ring
  rw [harg, neg_div]
  rw [sub_neg_eq_add, ← sub_nonneg]
  have hdiv : e * (Real.sin (M + e * Real.sin M) - Real.sin M) /
      (1 - e * Real.cos (M + e * Real.sin M)) ≤ Real.pi - (M + e * Real.sin M) := by
    rw [div_le_iff hfp]
    exact hkey
  linarith

set_option maxHeartbeats 1000000 in
/-- High mean anomalies `M ∈ [9/10, π/2]`: the first Newton step from the
seed does not overshoot past `π`. -/
theorem overshoot_none_high (e M : ℝ) (he0 : 0 ≤ e) (he1 : e ≤ 99/100)
    (hM0 : 9/10 ≤ M) (hM1 : M ≤ Real.pi/2) :
    kN e M (M + e * Real.sin M) ≤ Real.pi := by
  have hpi : (3.141592:ℝ) < Real.pi := Real.pi_gt_3141592
  have hpi2 : Real.pi < 3.141593 := Real.pi_lt_3141593
  have hM0' : (0:ℝ) ≤ M := by linarith
  have hs_l : (7785/10000:ℝ) ≤ Real.sin M := by
    have h2 : Real.sin (9/10) ≤ Real.sin M :=
      Real.sin_le_sin_of_le_of_le_pi_div_two (by linarith) hM1 hM0
    linarith [sin_9_ge]
  have hs_u1 : Real.sin M ≤ 1 := Real.sin_le_one M
  have hs0 : (0:ℝ) ≤ Real.sin M := by linarith
  have hes : (0:ℝ) ≤ e * Real.sin M := mul_nonneg he0 hs0
  have hE0pi : M + e * Real.sin M ≤ Real.pi :=
    seed_le_pi e M he0 (by linarith) hM0' (by linarith)
  -- denominator lower bound via cos monotonicity
  have hcosE0 : Real.cos (M + e * Real.sin M) ≤ Real.cos (9/10) :=
    Real.cos_le_cos_of_nonneg_of_le_pi (by norm_num) hE0pi (by linarith)
  have hq5 : 1 - (6224/10000)*e ≤ 1 - e * Real.cos (M + e * Real.sin M) := by
    have h1 : Real.cos (M + e * Real.sin M) ≤ 6224/10000 := le_trans hcosE0 cos_9_le
    nlinarith [mul_le_mul_of_nonneg_left h1 he0]
  -- numerator upper bound
  have hnum : e * (Real.sin (M + e * Real.sin M) - Real.sin M) ≤
      e * (1 - Real.sin M) := by
    apply mul_le_mul_of_nonneg_left _ he0
    linarith [Real.sin_le_one (M + e * Real.sin M)]
  -- certificate comparison
  have hClb : 15707/10000 - e * Real.sin M ≤ Real.pi - (M + e * Real.sin M) := by
    linarith
  have hC0 : (0:ℝ) ≤ 15707/10000 - e * Real.sin M := by nlinarith
  have hD0 : (0:ℝ) ≤ 1 - (6224/10000)*e := by nlinarith
  have hW := w2b e (Real.sin M) he0 he1 hs_l
  have hprod : (15707/10000 - e * Real.sin M) * (1 - (6224/10000)*e) ≤
      (Real.pi - (M + e * Real.sin M)) * (1 - e * Real.cos (M + e * Real.sin M)) :=
    mul_le_mul hClb hq5 hD0 (by linarith)
  have hkey : e * (Real.sin (M + e * Real.sin M) - Real.sin M) ≤
      (Real.pi - (M + e * Real.sin M)) * (1 - e * Real.cos (M + e * Real.sin M)) :=
    le_trans hnum (le_trans hW hprod)
  have hfp : 0 < 1 - e * Real.cos (M + e * Real.sin M) :=
    kfp_pos e (M + e * Real.sin M) he0 (by linarith)
  rw [kN]
  have harg : M + e * Real.sin M - e * Real.sin (M + e * Real.sin M) - M
      = -(e * (Real.sin (M + e * Real.sin M) - Real.sin M)) := by ring
  rw [harg, neg_div]
  rw [sub_neg_eq_add, ← sub_nonneg]
  have hdiv : e * (Real.sin (M + e * Real.sin M) - Real.sin M) /
      (1 - e * Real.cos (M + e * Real.sin M)) ≤ Real.pi - (M + e * Real.sin M) := by
    rw [div_le_iff hfp]
    exact hkey
  linarith

set_option maxHeartbeats 1000000 in
/-- Small mean anomalies `M ∈ [0, 27/100]`: the first Newton step from the
seed overshoots by at most `4/5` past `π`. -/
theorem overshoot_small (e M : ℝ) (he0 : 0 ≤ e) (he1 : e ≤ 99/100)
    (hM0 : 0 ≤ M) (hM1 : M ≤ 27/100) :
    kN e M (M + e * Real.sin M) ≤ Real.pi + 4/5 := by
  have hpi : (3.141592:ℝ) < Real.pi := Real.pi_gt_3141592
  have hpi2 : Real.pi < 3.141593 := Real.pi_lt_3141593
  have hs0 : (0:ℝ) ≤ Real.sin M :=
    Real.sin_nonneg_of_nonneg_of_le_pi hM0 (by linarith)
  have hsM : Real.sin M ≤ M := Real.sin_le hM0
  have hes : (0:ℝ) ≤ e * Real.sin M := mul_nonneg he0 hs0
  have hesM : e * Real.sin M ≤ M := by nlinarith
  have hE0_0 : (0:ℝ) ≤ M + e * Real.sin M := by linarith
  have hE0_2M : M + e * Real.sin M ≤ 2*M := by linarith
  have hE0_17 : M + e * Real.sin M ≤ 17/10 := by linarith
  -- seed lower bound `M (1 + (98/100) e) ≤ E₀`
  have hcub := sin_ge_cubic M hM0
  have hseed_lb : M * (1 + (98/100)*e) ≤ M + e * Real.sin M := by
    have hM2 : M^2 ≤ 729/10000 := by nlinarith
    have h1 : (98/100)*M ≤ M - M^3/6 := by nlinarith [mul_le_mul_of_nonneg_right hM2 hM0]
    have h2 : (98/100)*M ≤ Real.sin M := le_trans h1 hcub
    nlinarith [mul_le_mul_of_nonneg_left h2 he0]
  have hseed_lb0 : (0:ℝ) ≤ M * (1 + (98/100)*e) := mul_nonneg hM0 (by linarith)
  -- denominator lower bound
  have hq1 := denom_ge_quartic e (M + e * Real.sin M) he0 hE0_0
  have hq3 := quartic_mono (M * (1 + (98/100)*e)) (M + e * Real.sin M)
    hseed_lb0 hseed_lb hE0_17
  have hq4 : ((1 + (98/100)*e)^2/2 - 486/10000)*M^2 ≤
      (M * (1 + (98/100)*e))^2/2 - (M * (1 + (98/100)*e))^4/24 := by
    have hA2 : (1 + (98/100)*e)^2 ≤ 38817/10000 := by nlinarith
    have hM2 : M^2 ≤ 729/10000 := by nlinarith
    have hA4 : ((1 + (98/100)*e)^2)^2 ≤ (38817/10000)^2 := by
      nlinarith [sq_nonneg (1 + (98/100)*e)]
    have hkey : ((1 + (98/100)*e))^4 * M^2 ≤ (38817/10000)^2 * (729/10000) := by
      have h1 : ((1 + (98/100)*e))^4 * M^2 ≤ (38817/10000)^2 * M^2 := by
        have h4 : ((1 + (98/100)*e))^4 = ((1 + (98/100)*e)^2)^2 := by ring
        rw [h4]
        exact mul_le_mul_of_nonneg_right hA4 (sq_nonneg M)
      have h2 : (38817/10000:ℝ)^2 * M^2 ≤ (38817/10000)^2 * (729/10000) := by
        apply mul_le_mul_of_nonneg_left hM2 (by norm_num)
      linarith
    nlinarith [sq_nonneg M, sq_nonneg (M * (1 + (98/100)*e))]
  have hq5 : (1-e) + e*((1 + (98/100)*e)^2/2 - 486/10000)*M^2 ≤
      1 - e * Real.cos (M + e * Real.sin M) := by
    have hmul := mul_le_mul_of_nonneg_left (le_trans hq4 hq3) he0
    nlinarith
  -- numerator upper bound
  have hT3 := sin_sub_sin_le_mul_cos hM0 (show M ≤ M + e * Real.sin M by linarith)
    (show M + e * Real.sin M ≤ 2 * Real.pi - M by linarith)
  have hnum : e * (Real.sin (M + e * Real.sin M) - Real.sin M) ≤ e^2 * M := by
    have h1 : Real.sin (M + e * Real.sin M) - Real.sin M ≤ e * Real.sin M * Real.cos M := by
      nlinarith
    have h2 : e * Real.sin M * Real.cos M ≤ e * M := by
      have hc := Real.cos_le_one M
      nlinarith
    have h3 := mul_le_mul_of_nonneg_left (le_trans h1 h2) he0
    nlinarith
  -- certificate comparison
  have hClb : 39415/10000 - 2*M ≤ Real.pi + 4/5 - (M + e * Real.sin M) := by linarith
  have hC0 : (0:ℝ) ≤ 39415/10000 - 2*M := by linarith
  have hD0 : (0:ℝ) ≤ (1-e) + e*((1 + (98/100)*e)^2/2 - 486/10000)*M^2 := by
    have hK : (0:ℝ) ≤ (1+(98/100)*e)^2/2 - 486/10000 := by nlinarith [sq_nonneg e]
    have := mul_nonneg (mul_nonneg he0 hK) (sq_nonneg M)
    nlinarith
  have hW := w1g e M he0 he1 hM0 hM1
  have hprod : (39415/10000 - 2*M) * ((1-e) + e*((1 + (98/100)*e)^2/2 - 486/10000)*M^2) ≤
      (Real.pi + 4/5 - (M + e * Real.sin M)) * (1 - e * Real.cos (M + e * Real.sin M)) :=
    mul_le_mul hClb hq5 hD0 (by linarith)
  have hkey : e * (Real.sin (M + e * Real.sin M) - Real.sin M) ≤
      (Real.pi + 4/5 - (M + e * Real.sin M)) * (1 - e * Real.cos (M + e * Real.sin M)) := by
    calc e * (Real.sin (M + e * Real.sin M) - Real.sin M) ≤ e^2 * M := hnum
      _ ≤ _ := le_trans hW hprod
  have hfp : 0 < 1 - e * Real.cos (M + e * Real.sin M) :=
    kfp_pos e (M + e * Real.sin M) he0 (by linarith)
  rw [kN]
  have harg : M + e * Real.sin M - e * Real.sin (M + e * Real.sin M) - M
      = -(e * (Real.sin (M + e * Real.sin M) - Real.sin M)) := by ring
  rw [harg, neg_div]
  rw [sub_neg_eq_add, ← sub_nonneg]
  have hdiv : e * (Real.sin (M + e * Real.sin M) - Real.sin M) /
      (1 - e * Real.cos (M + e * Real.sin M)) ≤ Real.pi + 4/5 - (M + e * Real.sin M) := by
    rw [div_le_iff hfp]
    exact hkey
  linarith
/-! ### Second-step recovery, contraction induction, and assembly -/

/-- For mean anomalies at or past `π/2`, the seed already sits at or right
of the root: the Kepler function at the seed is at least `M`. -/
theorem seed_residual_late (e M : ℝ) (he0 : 0 ≤ e) (he1 : e ≤ 1)
    (hM : Real.pi/2 ≤ M) (hMpi : M ≤ Real.pi) :
    M ≤ kg e (M + e * Real.sin M) := by
  have hpip : 0 < Real.pi := Real.pi_pos
  have hs0 : 0 ≤ Real.sin M :=
    Real.sin_nonneg_of_nonneg_of_le_pi (by linarith) hMpi
  have hes0 : 0 ≤ e * Real.sin M := mul_nonneg he0 hs0
  have hE0pi : M + e * Real.sin M ≤ Real.pi :=
    seed_le_pi e M he0 he1 (by linarith) hMpi
  have hsin := sin_anti_late M (M + e * Real.sin M) hM (by linarith) hE0pi
  simp only [kg]
  nlinarith [mul_le_mul_of_nonneg_left hsin he0]

set_option maxHeartbeats 1000000 in
/-- After a small-`M` overshoot into `(π, π + 4/5]`, the next Newton step
lands back between the root and `π`. -/
theorem second_step_lands (e M Es E1 : ℝ) (he0 : 0 ≤ e) (he1 : e ≤ 99/100)
    (hroot : kg e Es = M) (hEs0 : 0 ≤ Es) (hM0 : 0 ≤ M) (hM1 : M ≤ 27/100)
    (hE1l : Real.pi < E1) (hE1u : E1 ≤ Real.pi + 4/5) :
    Es ≤ kN e M E1 ∧ kN e M E1 ≤ Real.pi := by
  have hpi : (3.141592:ℝ) < Real.pi := Real.pi_gt_3141592
  have hpi2 : Real.pi < 3.141593 := Real.pi_lt_3141593
  have he1' : e < 1 := lt_of_le_of_lt he1 (by norm_num)
  -- cap on the root: `Es ≤ 6/5`
  have hsin65nn : (0:ℝ) ≤ Real.sin (6/5) :=
    Real.sin_nonneg_of_nonneg_of_le_pi (by norm_num) (by linarith)
  have hkg65 : (27/100:ℝ) ≤ kg e (6/5) := by
    simp only [kg]
    nlinarith [mul_le_mul he1 sin_65_le hsin65nn (by norm_num)]
  have hEs65 : Es ≤ 6/5 := kg_le_rev e Es (6/5) he0 he1' (by rw [hroot]; linarith)
  -- half-angle data at `E1 = π + u`
  have hsinE1 : Real.sin (E1 - Real.pi) = -Real.sin E1 := by
    rw [Real.sin_sub]
    simp
  have hcosE1 : Real.cos (E1 - Real.pi) = -Real.cos E1 := by
    rw [Real.cos_sub]
    simp
  have hu0 : 0 ≤ E1 - Real.pi := by linarith
  have hu1 : E1 - Real.pi ≤ 4/5 := by linarith
  have hsinu0 : 0 ≤ Real.sin (E1 - Real.pi) :=
    Real.sin_nonneg_of_nonneg_of_le_pi hu0 (by linarith)
  have hsinuu : Real.sin (E1 - Real.pi) ≤ E1 - Real.pi := Real.sin_le hu0
  have hcosu_lb : 1 - (E1 - Real.pi)^2/2 ≤ Real.cos (E1 - Real.pi) :=
    Real.one_sub_sq_div_two_le_cos
  have hcosu0 : (0:ℝ) ≤ Real.cos (E1 - Real.pi) := by nlinarith
  -- root data
  have hsinEs_le : Real.sin Es ≤ 93274/100000 := by
    have h1 : Real.sin Es ≤ Real.sin (6/5) :=
      Real.sin_le_sin_of_le_of_le_pi_div_two (by linarith) (by linarith) hEs65
    linarith [sin_65_le]
  have hsinEs0 : 0 ≤ Real.sin Es :=
    Real.sin_nonneg_of_nonneg_of_le_pi hEs0 (by linarith)
  have hMeq : M = Es - e * Real.sin Es := by
    rw [← hroot]
    simp [kg]
  have hfp : 0 < 1 - e * Real.cos E1 := kfp_pos e E1 he0 he1'
  -- upper bound: the step does not cross back past `π` from above
  have hub : (E1 - Real.pi) * (1 - e * Real.cos E1) ≤ E1 - e * Real.sin E1 - M := by
    have hc1 : Real.cos (E1 - Real.pi) ≤ 1 := Real.cos_le_one _
    have h1 : (E1 - Real.pi) * (1 - e * Real.cos E1) ≤ (E1 - Real.pi) * 2 := by
      apply mul_le_mul_of_nonneg_left _ hu0
      nlinarith [mul_le_mul_of_nonneg_left hc1 he0]
    have h2 : 0 ≤ e * Real.sin (E1 - Real.pi) := mul_nonneg he0 hsinu0
    nlinarith [hsinE1]
  have hpart2 : kN e M E1 ≤ Real.pi := by
    rw [kN]
    have h2 : E1 - Real.pi ≤ (E1 - e * Real.sin E1 - M) / (1 - e * Real.cos E1) := by
      rw [le_div_iff hfp]
      exact hub
    linarith
  -- lower bound: the step does not cross below the root
  have hpure : Real.sin (E1 - Real.pi) + Real.sin Es ≤
      (E1 - Es) * Real.cos (E1 - Real.pi) := by
    have hw3 := w3 (E1 - Real.pi) hu0 hu1
    have hfac1 : 31415/10000 + (E1 - Real.pi) - 6/5 ≤ E1 - Es := by linarith
    have hfac1p : (0:ℝ) ≤ 31415/10000 + (E1 - Real.pi) - 6/5 := by linarith
    have hfac2p : (0:ℝ) ≤ 1 - (E1 - Real.pi)^2/2 := by nlinarith
    have hmul : (31415/10000 + (E1 - Real.pi) - 6/5) * (1 - (E1 - Real.pi)^2/2) ≤
        (E1 - Es) * Real.cos (E1 - Real.pi) :=
      mul_le_mul hfac1 hcosu_lb hfac2p (by linarith)
    linarith
  have hlb : E1 - e * Real.sin E1 - M ≤ (E1 - Es) * (1 - e * Real.cos E1) := by
    have hmul := mul_le_mul_of_nonneg_left hpure he0
    have hsE1 : Real.sin E1 = -Real.sin (E1 - Real.pi) := by linarith [hsinE1]
    have hcE1 : Real.cos E1 = -Real.cos (E1 - Real.pi) := by linarith [hcosE1]
    rw [hsE1, hcE1, hMeq]
    nlinarith [hmul]
  have hpart1 : Es ≤ kN e M E1 := by
    rw [kN]
    have h2 : (E1 - e * Real.sin E1 - M) / (1 - e * Real.cos E1) ≤ E1 - Es := by
      rw [div_le_iff hfp]
      exact hlb
    linarith
  exact ⟨hpart1, hpart2⟩

/-- Contraction induction for the monotone phase: starting at or right of
the root in `[0, π]`, after `n` passes the residual is at most the larger
of the break bound `4·tol` and the geometric envelope
`2 (E − Es) (2/3)ⁿ`. -/
theorem keplerIter_residual (e M tol Es : ℝ) (he0 : 0 ≤ e) (he1 : e ≤ 1)
    (he1' : e < 1) (hroot : kg e Es = M) :
    ∀ n E, 0 ≤ Es → Es ≤ E → E ≤ Real.pi →
      |kg e (keplerIter e M tol n E) - M| ≤ max (4*tol) (2*(E - Es)*(2/3)^n) := by
  intro n
  induction n with
  | zero =>
    intro E hEs0 hEsE hEpi
    have h1 : keplerIter e M tol 0 E = E := rfl
    rw [h1, pow_zero]
    have h2 : 0 ≤ kg e E - M := by
      rw [← hroot]
      nlinarith [kg_gap e Es E he0 hEsE, mul_nonneg (sub_nonneg.mpr he1)
        (sub_nonneg.mpr hEsE)]
    have h6 := kg_lip2 e Es E he0 he1
    have h7 : |E - Es| = E - Es := abs_of_nonneg (by linarith)
    rw [h7] at h6
    have h5 : kg e E - M ≤ 2*(E - Es) := by
      rw [← hroot]
      calc kg e E - kg e Es ≤ |kg e E - kg e Es| := le_abs_self _
        _ ≤ 2*(E - Es) := h6
    have h4 : |kg e E - M| = kg e E - M := abs_of_nonneg h2
    rw [h4]
    refine le_trans ?_ (le_max_right _ _)
    linarith
  | succ n ih =>
    intro E hEs0 hEsE hEpi
    rw [keplerIter_succ]
    split_ifs with hbrk
    · rw [keplerIter_step_eq]
      exact le_trans (break_residual e M tol E he0 he1 he1' hbrk) (le_max_left _ _)
    · rw [keplerIter_step_eq]
      have hge := step_ge_root e M Es E he0 he1' hroot hEs0 hEsE hEpi
      have hle := step_le_self e M Es E he0 he1' hroot hEsE
      have hratio := step_ratio e M Es E he0 he1 he1' hroot hEs0 hEsE hEpi
      have ihh := ih (kN e M E) hEs0 hge (le_trans hle hEpi)
      refine le_trans ihh (max_le_max le_rfl ?_)
      have hp : (0:ℝ) ≤ (2/3)^n := by positivity
      calc 2*(kN e M E - Es)*(2/3)^n ≤ 2*((2/3)*(E - Es))*(2/3)^n := by
            apply mul_le_mul_of_nonneg_right _ hp
            linarith
        _ = 2*(E - Es)*(2/3)^(n+1) := by ring

set_option maxHeartbeats 1000000 in
/-- Solver residual bound on the half range `M ∈ [0, π]`. -/
theorem kepler_half (e M : ℝ) (he0 : 0 ≤ e) (he1 : e ≤ 99/100)
    (hM0 : 0 ≤ M) (hMpi : M ≤ Real.pi) :
    |kg e (keplerIter e M (1e-8) 50 (M + e * Real.sin M)) - M| < 1e-6 := by
  have hpi : (3.141592:ℝ) < Real.pi := Real.pi_gt_3141592
  have hpi2 : Real.pi < 3.141593 := Real.pi_lt_3141593
  have he2 : e ≤ 1 := by linarith
  have he1' : e < 1 := by linarith
  obtain ⟨Es, hEs0, hEspi, hroot⟩ := kg_root_exists e M he0 hM0 hMpi
  have hs0 : 0 ≤ Real.sin M := Real.sin_nonneg_of_nonneg_of_le_pi hM0 hMpi
  have hes0 : 0 ≤ e * Real.sin M := mul_nonneg he0 hs0
  have hE0pi : M + e * Real.sin M ≤ Real.pi := seed_le_pi e M he0 he2 hM0 hMpi
  rcases le_or_lt M (kg e (M + e * Real.sin M)) with hA | hB
  · -- the seed is at or right of the root: 50 monotone passes
    have hEsE0 : Es ≤ M + e * Real.sin M :=
      kg_le_rev e Es _ he0 he1' (by rw [hroot]; exact hA)
    have h := keplerIter_residual e M (1e-8) Es he0 he2 he1' hroot 50 _ hEs0 hEsE0 hE0pi
    exact lt_of_le_of_lt h (kepler_tail_bound (M + e * Real.sin M - Es) 50
      (by linarith) (by linarith) (by norm_num))
  · -- the seed is left of the root: unfold the first pass
    have hMhalf : M < Real.pi/2 := by
      by_contra hc
      push_neg at hc
      exact absurd (seed_residual_late e M he0 he2 hc hMpi) (not_le.mpr hB)
    have hfE0 : kg e (M + e * Real.sin M) - M ≤ 0 := by linarith
    rw [show (50:ℕ) = 49+1 from rfl, keplerIter_succ]
    split_ifs with hbrk
    · rw [keplerIter_step_eq]
      have h := break_residual e M (1e-8) (M + e * Real.sin M) he0 he2 he1' hbrk
      calc |kg e (kN e M (M + e * Real.sin M)) - M| ≤ 4*(1e-8) := h
        _ < 1e-6 := by norm_num
    · rw [keplerIter_step_eq]
      rcases le_or_lt M (27/100) with hSmall | hMid
      · -- small `M`: possible overshoot, at most `4/5` past `π`
        have hE1u := overshoot_small e M he0 he1 hM0 hSmall
        have hsM : Real.sin M ≤ M := Real.sin_le hM0
        have hesM : e * Real.sin M ≤ M := by nlinarith
        have hover : kN e M (M + e * Real.sin M) ≤
            2*Real.pi - (M + e * Real.sin M) := by linarith
        have hf1 := newton_from_left e M (M + e * Real.sin M) he0 he1'
          (by linarith) hfE0 hover
        have hEsE1 : Es ≤ kN e M (M + e * Real.sin M) :=
          kg_le_rev e Es _ he0 he1' (by rw [hroot]; linarith)
        rcases le_or_lt (kN e M (M + e * Real.sin M)) Real.pi with hE1pi | hE1over
        · have h := keplerIter_residual e M (1e-8) Es he0 he2 he1' hroot 49 _
            hEs0 hEsE1 hE1pi
          exact lt_of_le_of_lt h (kepler_tail_bound _ 49
            (by linarith) (by linarith) (by norm_num))
        · -- genuine overshoot: unfold the second pass
          rw [show (49:ℕ) = 48+1 from rfl, keplerIter_succ]
          split_ifs with hbrk2
          · rw [keplerIter_step_eq]
            have h := break_residual e M (1e-8) (kN e M (M + e * Real.sin M))
              he0 he2 he1' hbrk2
            calc |kg e (kN e M (kN e M (M + e * Real.sin M))) - M| ≤ 4*(1e-8) := h
              _ < 1e-6 := by norm_num
          · rw [keplerIter_step_eq]
            obtain ⟨hlow, hup⟩ := second_step_lands e M Es
              (kN e M (M + e * Real.sin M)) he0 he1 hroot hEs0 hM0 hSmall
              hE1over hE1u
            have h := keplerIter_residual e M (1e-8) Es he0 he2 he1' hroot 48 _
              hEs0 hlow hup
            exact lt_of_le_of_lt h (kepler_tail_bound _ 48
              (by linarith) (by linarith) le_rfl)
      · -- mid and high `M`: the first step cannot overshoot past `π`
        have hE1pi : kN e M (M + e * Real.sin M) ≤ Real.pi := by
          rcases le_or_lt M (9/10) with h9 | h9
          · exact overshoot_none_mid e M he0 he1 hMid.le h9
          · exact overshoot_none_high e M he0 he1 h9.le hMhalf.le
        have hover : kN e M (M + e * Real.sin M) ≤
            2*Real.pi - (M + e * Real.sin M) := by linarith
        have hf1 := newton_from_left e M (M + e * Real.sin M) he0 he1'
          (by linarith) hfE0 hover
        have hEsE1 : Es ≤ kN e M (M + e * Real.sin M) :=
          kg_le_rev e Es _ he0 he1' (by rw [hroot]; linarith)
        have h := keplerIter_residual e M (1e-8) Es he0 he2 he1' hroot 49 _
          hEs0 hEsE1 hE1pi
        exact lt_of_le_of_lt h (kepler_tail_bound _ 49
          (by linarith) (by linarith) (by norm_num))

/-- The Newton loop commutes with the reflection `E ↦ 2π − E`,
`M ↦ 2π − M` of Kepler's equation. -/
theorem keplerIter_mirror (e M tol : ℝ) :
    ∀ n E, keplerIter e (2*Real.pi - M) tol n (2*Real.pi - E)
      = 2*Real.pi - keplerIter e M tol n E := by
  intro n
  induction n with
  | zero => intro E; rfl
  | succ n ih =>
    intro E
    rw [keplerIter_succ, keplerIter_succ]
    have hsin : Real.sin (2*Real.pi - E) = -Real.sin E := by
      rw [Real.sin_sub]
      simp
    have hcos : Real.cos (2*Real.pi - E) = Real.cos E := by
      rw [Real.cos_sub]
      simp
    have harg : (2*Real.pi - E - e * Real.sin (2*Real.pi - E) - (2*Real.pi - M)) /
        (1 - e * Real.cos (2*Real.pi - E))
        = -((E - e * Real.sin E - M) / (1 - e * Real.cos E)) := by
      rw [hsin, hcos, ← neg_div]
      ring_nf
    rw [harg, abs_neg]
    split_ifs with h
    · ring
    · rw [show 2*Real.pi - E - -((E - e * Real.sin E - M) / (1 - e * Real.cos E))
          = 2*Real.pi - (E - (E - e * Real.sin E - M) / (1 - e * Real.cos E)) by ring]
      exact ih (E - (E - e * Real.sin E - M) / (1 - e * Real.cos E))

/-- Solver residual bound on the mirrored half range `M ∈ [π, 2π]`,
obtained from the half-range bound by the reflection symmetry. -/
theorem kepler_mirror_residual (e M : ℝ) (he0 : 0 ≤ e) (he1 : e ≤ 99/100)
    (hMpi : Real.pi ≤ M) (hM2 : M ≤ 2*Real.pi) :
    |kg e (keplerIter e M (1e-8) 50 (M + e * Real.sin M)) - M| < 1e-6 := by
  have key := kepler_half e (2*Real.pi - M) he0 he1 (by linarith) (by linarith)
  have hsin : Real.sin M = -Real.sin (2*Real.pi - M) := by
    rw [Real.sin_sub]
    simp
  have hseed : M + e * Real.sin M
      = 2*Real.pi - ((2*Real.pi - M) + e * Real.sin (2*Real.pi - M)) := by
    rw [hsin]
    ring
  have hmirror := keplerIter_mirror e (2*Real.pi - M) (1e-8) 50
    ((2*Real.pi - M) + e * Real.sin (2*Real.pi - M))
  rw [show 2*Real.pi - (2*Real.pi - M) = M by ring] at hmirror
  rw [← hseed] at hmirror
  set X := keplerIter e (2*Real.pi - M) (1e-8) 50
    ((2*Real.pi - M) + e * Real.sin (2*Real.pi - M)) with hX
  rw [hmirror]
  have hsX : Real.sin (2*Real.pi - X) = -Real.sin X := by
    rw [Real.sin_sub]
    simp
  have hrel : kg e (2*Real.pi - X) - M = -(kg e X - (2*Real.pi - M)) := by
    simp only [kg]
    rw [hsX]
    ring
  rw [hrel, abs_neg]
  exact key
/-- C3: for every eccentricity `e ∈ [0, 0.99]` and mean anomaly
`M ∈ [0, 2π)`, the eccentric anomaly `E = solveKepler M e` (default
tolerance `1e-8`, at most 50 Newton-Raphson iterations seeded with
`E₀ = M + e sin M`) satisfies `|M − (E − e sin E)| < 1e-6`; the solver is a
total function, so no error is raised on non-convergence. -/
theorem solveKepler_residual_bound (M e : ℝ) (he0 : 0 ≤ e) (he1 : e ≤ 0.99)
    (hM0 : 0 ≤ M) (hM1 : M < 2*Real.pi) :
    |M - (solveKepler M e - e * Real.sin (solveKepler M e))| < 1e-6 := by
  have he1' : e ≤ 99/100 := by
    have h : (0.99:ℝ) = 99/100 := by norm_num
    linarith [h ▸ he1]
  have hsk : solveKepler M e = keplerIter e (normalizeM M) (1e-8) 50
      (normalizeM M + e * Real.sin (normalizeM M)) := rfl
  rw [hsk, normalizeM_id M hM0 hM1]
  have habs : |M - (keplerIter e M (1e-8) 50 (M + e * Real.sin M)
      - e * Real.sin (keplerIter e M (1e-8) 50 (M + e * Real.sin M)))|
      = |kg e (keplerIter e M (1e-8) 50 (M + e * Real.sin M)) - M| := by
    rw [abs_sub_comm]
    simp only [kg]
  rw [habs]
  rcases le_or_lt M Real.pi with hMp | hMp
  · exact kepler_half e M he0 he1' hM0 hMp
  · exact kepler_mirror_residual e M he0 he1' hMp.le hM1.le

/-- C3 witness: the residual bound instantiated at `M = 1`, `e = 1/2`. -/
theorem solveKepler_residual_bound_witness :
    |1 - (solveKepler 1 (1/2) - (1/2) * Real.sin (solveKepler 1 (1/2)))| < 1e-6 :=
  solveKepler_residual_bound 1 (1/2) (by norm_num) (by norm_num) (by norm_num)
    (by linarith [Real.pi_gt_3141592])

end

end Planetes
